import Mathlib

/-! # svix-hooks: notification retry bookkeeping and the dispatch worker

A shallow embedding of `pkg/models/model.go` and
`pkg/services/hookService/hookService.go`.

Conventions of the embedding.

* Go `int`, `int32`, `int64` values are `Int`; where the source can leave the
  range of the machine type the wrap is written out (`wrapInt64`).  `uint64`
  is `Nat` reduced modulo `2 ^ 64`.
* A method with a pointer receiver `n *Notification` that mutates `*n`
  becomes a function returning the new value of `*n`.
* `time.Now()` is an input: the Unix-seconds reading is passed as `now`.
* The package `svix-hooks/pkg/utils/constants` is not part of the sources at
  hand; its constant `MAX_RETRIES` is a parameter of every definition that
  reads it.
-/

namespace SvixHooks

/-! ## pkg/models/model.go -/

/-- NotificationMetadata struct: the metadata of a notification. -/
structure NotificationMetadata where
  RetryCount : Int
  RetryTime : Int
deriving DecidableEq, Repr

/-- Notification struct: the data of a notification received from the API.
The payload `Data` (`map[string]any`) is kept as an association list; the
field `Type` is spelled `Type_`. -/
structure Notification where
  Object : String
  Id : String
  Data : List (String × String)
  DataContentType : String
  Project : String
  Source : String
  SpecVersion : String
  Time : String
  Type_ : String
  Version : String
  Metadata : NotificationMetadata
deriving DecidableEq, Repr

/-- Two's complement reduction of an integer to the range of `int64`. -/
def wrapInt64 (x : Int) : Int :=
  (x + 2 ^ 63) % 2 ^ 64 - 2 ^ 63

/-- The constant `time.Second` as a `time.Duration`: the number of nanoseconds
in a second. -/
def Second : Int := 1000000000

/-- The conversion `time.Duration(math.Pow(2, float64(k)))`.

Powers of two are exact in float64.  For `0 ≤ k < 63` the conversion to
`int64` yields `2 ^ k`; for `k < 0` the power lies in `[0, 1)` and truncates
to `0`; for `k ≥ 63` the power (or `+Inf`) is outside `int64` and Go leaves
the result to the platform, here the parameter `oor`. -/
def powDuration (oor : Int) (k : Int) : Int :=
  if k < 0 then 0
  else if k < 63 then 2 ^ k.toNat
  else oor

/-- SetRetryTime: `n.Metadata.RetryTime` becomes
`int64(time.Duration(math.Pow(2, float64(n.Metadata.RetryCount))) * time.Second)`.
The product is an `int64` product, so it wraps.  The clock is not read. -/
def SetRetryTime (oor : Int) (n : Notification) : Notification :=
  { n with
    Metadata :=
      { n.Metadata with
        RetryTime := wrapInt64 (powDuration oor n.Metadata.RetryCount * Second) } }

/-- ReadyToRetry: `time.Now().Unix() >= n.Metadata.RetryTime`. -/
def ReadyToRetry (now : Int) (n : Notification) : Bool :=
  decide (now ≥ n.Metadata.RetryTime)

/-- CanRetry: `n.Metadata.RetryCount < constants.MAX_RETRIES`. -/
def CanRetry (MAX_RETRIES : Int) (n : Notification) : Bool :=
  decide (n.Metadata.RetryCount < MAX_RETRIES)

/-- What `IncrementRetryCount` leaves behind: the notification after the call,
the returned `int`, and the returned `error` (`none` for `nil`). -/
structure IncrementResult where
  n : Notification
  value : Int
  err : Option String
deriving DecidableEq, Repr

/-- IncrementRetryCount: increments the retry count and returns the new
counter value, or returns `MAX_RETRIES` and an error without touching the
notification. -/
def IncrementRetryCount (MAX_RETRIES : Int) (n : Notification) : IncrementResult :=
  if n.Metadata.RetryCount < MAX_RETRIES then
    let n1 : Notification :=
      { n with Metadata := { n.Metadata with RetryCount := n.Metadata.RetryCount + 1 } }
    { n := n1, value := n1.Metadata.RetryCount, err := none }
  else
    { n := n, value := MAX_RETRIES,
      err := some ("Notification " ++ n.Id ++ " can not be tried more than MAX_RETRIES: "
        ++ toString MAX_RETRIES ++ " times") }

/-- A notification as the API handler builds it from a request body that
carries only an id and a type: every other field has its zero value. -/
def sampleNotification : Notification :=
  { Object := "", Id := "n1", Data := [], DataContentType := "", Project := "",
    Source := "", SpecVersion := "", Time := "", Type_ := "order.created", Version := "",
    Metadata := { RetryCount := 0, RetryTime := 0 } }

/-- The sample notification with a given retry count and retry time. -/
def sampleWith (count time : Int) : Notification :=
  { sampleNotification with Metadata := { RetryCount := count, RetryTime := time } }

/-! ## Channels

A buffered Go channel of `*Notification`: the buffered items in arrival order,
the capacity given to `make`, and whether `close` was called.  A notification
is referenced from one place at a time (a channel buffer or the worker that
received it), so the buffer holds values. -/

/-- A buffered channel of notifications. -/
structure Chan where
  buf : List Notification
  cap : Nat
  closed : Bool
deriving DecidableEq, Repr

/-- How a statement sequence ended: it ran to its end, it is parked on a
channel send that has no free slot, or it panicked (send on a closed
channel). -/
inductive Ctl where
  | done
  | blocked
  | panicked
deriving DecidableEq, Repr

/-- The call `make(chan *models.Notification, size)`; a negative size
panics. -/
def makeChan (size : Int) : Option Chan :=
  if size < 0 then none else some { buf := [], cap := size.toNat, closed := false }

/-- The send `c <- n`: it panics on a closed channel, appends when a slot is
free, and otherwise parks the sender. -/
def Chan.send (c : Chan) (n : Notification) : Ctl × Chan :=
  if c.closed then (Ctl.panicked, c)
  else if c.buf.length < c.cap then (Ctl.done, { c with buf := c.buf ++ [n] })
  else (Ctl.blocked, c)

/-- What a receive case of a `select` finds on its channel. -/
inductive Recv where
  | item (n : Notification) (rest : Chan)
  | closedEmpty
  | notReady
deriving DecidableEq, Repr

/-- The receive `n, ok := <-c` as a `select` case: the head of the buffer with
`ok = true`, or `ok = false` once the channel is closed and drained; on an
open empty channel the case is not ready. -/
def Chan.recv (c : Chan) : Recv :=
  match c.buf with
  | n :: rest => Recv.item n { c with buf := rest }
  | [] => if c.closed then Recv.closedEmpty else Recv.notReady

/-- The call `close(c)`; closing a closed channel panics. -/
def Chan.close (c : Chan) : Option Chan :=
  if c.closed then none else some { c with closed := true }

/-! ## pkg/config/config.go and pkg/services/hookService/hookService.go -/

/-- Config struct. -/
structure Config where
  Port : Int
  NumWorkers : Int
  ChannelBuffer : Int
  SvixApiKey : String
  SvixAppId : String
  SvixApiMaxRate : Int
  SvixApiMaxBurst : Int
deriving DecidableEq, Repr

/-- HookService struct: configuration and state of the hook service.  The
Svix client and the rate limiter are external; what they answer for one
delivery enters as a `Delivery`.  `waitGroup` is the counter of the shared
`sync.WaitGroup`. -/
structure HookService where
  Config : Config
  SvixChannel : Chan
  svixRetryChannel : Chan
  waitGroup : Int
  messagesProcessed : Nat
  activeWorkers : Int
  lastMessageProcessedTime : String
deriving DecidableEq, Repr

/-- New: builds the service around the given channels and wait group.
`time.Second / time.Duration(config.SvixApiMaxRate)` is an integer division,
which panics when the rate is zero. -/
def New (config : Config) (svixChannel svixRetryChannel : Chan) (waitGroup : Int) :
    Option HookService :=
  if config.SvixApiMaxRate = 0 then none
  else some
    { Config := config, SvixChannel := svixChannel, svixRetryChannel := svixRetryChannel,
      waitGroup := waitGroup, messagesProcessed := 0, activeWorkers := 0,
      lastMessageProcessedTime := "" }

/-- What the limiter and the Svix client answer for one `sendNotification`:
`rateLimiter.Wait` fails; or `CreateWithOptions` returns no error, an error
that is a `*svix.Error` with the given status, or any other error. -/
inductive Delivery where
  | limiterError
  | success
  | svixError (status : Int)
  | otherError
deriving DecidableEq, Repr

/-- What a call that was handed the notification `n` leaves behind: how it
ended, the service state, the notification, and how many times
`SvixClient.Message.CreateWithOptions` was invoked.  When `ctl` is not `done`
the state is the one reached at the send that did not go through, and `n` is
the notification being sent. -/
structure Effect where
  ctl : Ctl
  hs : HookService
  n : Notification
  calls : Nat
deriving DecidableEq, Repr

/-- retryNotification: on `429`, or on `>= 500` when the notification can be
retried, set the retry time and send the notification on the retry channel;
otherwise only log.  In Go `&&` binds tighter than `||`. -/
def retryNotification (MAX_RETRIES oor : Int) (hs : HookService) (n : Notification)
    (status : Int) : Effect :=
  if status = 429 ∨ (status ≥ 500 ∧ CanRetry MAX_RETRIES n = true) then
    let n1 := SetRetryTime oor n
    let r := hs.svixRetryChannel.send n1
    { ctl := r.1, hs := { hs with svixRetryChannel := r.2 }, n := n1, calls := 0 }
  else
    { ctl := Ctl.done, hs := hs, n := n, calls := 0 }

/-- sendNotification: wait for the limiter, call the client once, and hand a
Svix error to `retryNotification`. -/
def sendNotification (MAX_RETRIES oor : Int) (hs : HookService) (n : Notification)
    (d : Delivery) : Effect :=
  match d with
  | Delivery.limiterError => { ctl := Ctl.done, hs := hs, n := n, calls := 0 }
  | Delivery.success => { ctl := Ctl.done, hs := hs, n := n, calls := 1 }
  | Delivery.svixError status =>
    let e := retryNotification MAX_RETRIES oor hs n status
    { e with calls := e.calls + 1 }
  | Delivery.otherError => { ctl := Ctl.done, hs := hs, n := n, calls := 1 }

/-- updateProcessedMessagesCount: reset the `uint64` counter at its maximum,
increment it otherwise, and record the formatted clock reading `stamp`
(`time.Now().Format(time.RFC3339)`). -/
def updateProcessedMessagesCount (stamp : String) (hs : HookService) : HookService :=
  if hs.messagesProcessed = 2 ^ 64 - 1 then
    { hs with messagesProcessed := 0, lastMessageProcessedTime := stamp }
  else
    { hs with
      messagesProcessed := (hs.messagesProcessed + 1) % 2 ^ 64,
      lastMessageProcessedTime := stamp }

/-- The map returned by `GetStats`, one field per key. -/
structure Stats where
  numWorkers : Int
  svixChannelSize : Nat
  svixRetryChannelSize : Nat
  messagesProcessed : Nat
  lastMessageProcessed : String
deriving DecidableEq, Repr

/-- GetStats: the statistics of the hook service. -/
def GetStats (hs : HookService) : Stats :=
  { numWorkers := hs.activeWorkers,
    svixChannelSize := hs.SvixChannel.buf.length,
    svixRetryChannelSize := hs.svixRetryChannel.buf.length,
    messagesProcessed := hs.messagesProcessed,
    lastMessageProcessed := hs.lastMessageProcessedTime }

/-- One pass through a receive case of the worker loop: how it ended, the
service state, the notification received (as the pass leaves it, `none` when
the channel reported that it is closed), and the number of client calls. -/
structure Iteration where
  ctl : Ctl
  hs : HookService
  item : Option Notification
  calls : Nat
deriving DecidableEq, Repr

/-- An `Effect` as the result of the loop pass that produced it. -/
def Effect.toIteration (e : Effect) : Iteration :=
  { ctl := e.ctl, hs := e.hs, item := some e.n, calls := e.calls }

/-- The `case n, ok := <-hs.SvixChannel` arm of `worker`; `none` when the case
is not ready. -/
def workerPrimary (MAX_RETRIES oor : Int) (hs : HookService) (stamp : String)
    (d : Delivery) : Option Iteration :=
  match hs.SvixChannel.recv with
  | Recv.notReady => none
  | Recv.closedEmpty => some { ctl := Ctl.done, hs := hs, item := none, calls := 0 }
  | Recv.item n rest =>
    let hs1 := updateProcessedMessagesCount stamp { hs with SvixChannel := rest }
    some (sendNotification MAX_RETRIES oor hs1 n d).toIteration

/-- The `case n, ok := <-hs.svixRetryChannel` arm of `worker`; `none` when the
case is not ready. -/
def workerRetry (MAX_RETRIES oor : Int) (hs : HookService) (now : Int)
    (d : Delivery) : Option Iteration :=
  match hs.svixRetryChannel.recv with
  | Recv.notReady => none
  | Recv.closedEmpty => some { ctl := Ctl.done, hs := hs, item := none, calls := 0 }
  | Recv.item n rest =>
    let hs1 := { hs with svixRetryChannel := rest }
    if ReadyToRetry now n = true then
      let r := IncrementRetryCount MAX_RETRIES n
      if r.err.isSome then
        some { ctl := Ctl.done, hs := hs1, item := some r.n, calls := 0 }
      else
        some (sendNotification MAX_RETRIES oor hs1 r.n d).toIteration
    else
      let s := hs1.svixRetryChannel.send n
      some { ctl := s.1, hs := { hs1 with svixRetryChannel := s.2 }, item := some n, calls := 0 }

/-- The `case <-context.Done()` arm of `worker` followed by the deferred
`hs.waitGroup.Done()`: the worker decrements the active-worker counter and
returns. -/
def workerCancel (hs : HookService) : HookService :=
  { hs with activeWorkers := hs.activeWorkers - 1, waitGroup := hs.waitGroup - 1 }

/-! ## The running service

The goroutines of `main.go`: the main goroutine runs `Start` and later `Stop`,
the HTTP handler sends decoded notifications on `SvixChannel`, and every
worker runs the loop of `worker`.  One pass of a worker through an arm of its
`select` is one step; a pass that ends parked on a channel send leaves the
worker in `sending` until the send goes through.  A panic in any goroutine
ends the program. -/

/-- Where a worker goroutine stands: in its `select`, parked on
`hs.svixRetryChannel <- n`, or returned. -/
inductive WorkerPc where
  | running
  | sending (n : Notification)
  | exited
deriving DecidableEq, Repr

/-- A worker goroutine, with the number of times it has executed
`atomic.AddInt32(&hs.activeWorkers, -1)`. -/
structure Worker where
  pc : WorkerPc
  decrements : Nat
deriving DecidableEq, Repr

/-- Where the main goroutine stands in `Start` (the loop test for index `i`,
then the increment of the counter after `go hs.worker(i, context)`) and in
`Stop` (after each `close`, then `cancelWorkers()`, then
`hs.waitGroup.Wait()`). -/
inductive MainPc where
  | startLoop (i : Int)
  | startInc (i : Int)
  | started
  | stopClosedPrimary
  | stopClosedRetry
  | stopWaiting
  | stopped
deriving DecidableEq, Repr

/-- A call of `SvixClient.Message.CreateWithOptions`: the `EventId` sent (the
id of the notification) and whether the call was made in a retry-queue pass
of a worker rather than in a primary-queue pass. -/
structure Call where
  EventId : String
  fromRetry : Bool
deriving DecidableEq, Repr

/-- The state of the program: the service, whether the context was cancelled,
whether a goroutine panicked, the main goroutine, the workers in launch order,
the number of `atomic.AddInt32(&hs.activeWorkers, 1)` executed by `Start`, and
every `CreateWithOptions` call made so far. -/
structure Sys where
  hs : HookService
  cancelled : Bool
  crashed : Bool
  main : MainPc
  workers : List Worker
  increments : Nat
  delivered : List Call
deriving DecidableEq, Repr

/-- The program as `main.go` (and `setup` of the test) sets it up: two
channels of capacity `ChannelBuffer`, a zero `sync.WaitGroup`, a live context,
the service built by `New`, and the main goroutine about to enter `Start`. -/
def boot (conf : Config) : Option Sys :=
  match makeChan conf.ChannelBuffer, makeChan conf.ChannelBuffer with
  | some svixChannel, some svixRetryChannel =>
    match New conf svixChannel svixRetryChannel 0 with
    | some hs =>
      some { hs := hs, cancelled := false, crashed := false, main := MainPc.startLoop 0,
             workers := [], increments := 0, delivered := [] }
    | none => none
  | _, _ => none

/-- The next step of the main goroutine.

`Start`: `for i := int32(0); i < hs.Config.NumWorkers; i++` with the body
`hs.waitGroup.Add(1); go hs.worker(i, context)` as one step and
`atomic.AddInt32(&hs.activeWorkers, 1)` as the next.
`Stop`: `close(hs.SvixChannel)`, `close(hs.svixRetryChannel)`,
`cancelWorkers()`, and `hs.waitGroup.Wait()`, which returns once the counter
is zero. -/
def mainStep (s : Sys) : Option Sys :=
  match s.main with
  | MainPc.startLoop i =>
    if i < s.hs.Config.NumWorkers then
      some { s with
        hs := { s.hs with waitGroup := s.hs.waitGroup + 1 },
        workers := s.workers ++ [{ pc := WorkerPc.running, decrements := 0 }],
        main := MainPc.startInc i }
    else some { s with main := MainPc.started }
  | MainPc.startInc i =>
    some { s with
      hs := { s.hs with activeWorkers := s.hs.activeWorkers + 1 },
      increments := s.increments + 1,
      main := MainPc.startLoop (i + 1) }
  | MainPc.started =>
    match s.hs.SvixChannel.close with
    | some c =>
      some { s with hs := { s.hs with SvixChannel := c }, main := MainPc.stopClosedPrimary }
    | none => some { s with crashed := true }
  | MainPc.stopClosedPrimary =>
    match s.hs.svixRetryChannel.close with
    | some c =>
      some { s with hs := { s.hs with svixRetryChannel := c }, main := MainPc.stopClosedRetry }
    | none => some { s with crashed := true }
  | MainPc.stopClosedRetry => some { s with cancelled := true, main := MainPc.stopWaiting }
  | MainPc.stopWaiting =>
    if s.hs.waitGroup = 0 then some { s with main := MainPc.stopped } else none
  | MainPc.stopped => none

/-- The client calls of one loop pass, made in a retry-queue pass or not. -/
def Iteration.ids (it : Iteration) (fromRetry : Bool) : List Call :=
  match it.item with
  | some n => List.replicate it.calls { EventId := n.Id, fromRetry := fromRetry }
  | none => []

/-- The program after worker `w` made the loop pass `it`, a retry-queue pass
or not. -/
def finish (s : Sys) (w : Nat) (wk : Worker) (fromRetry : Bool) (it : Iteration) : Sys :=
  let s1 : Sys := { s with hs := it.hs, delivered := s.delivered ++ it.ids fromRetry }
  match it.ctl, it.item with
  | Ctl.done, _ => s1
  | Ctl.blocked, some n =>
    { s1 with workers := s.workers.set w { wk with pc := WorkerPc.sending n } }
  | Ctl.blocked, none => s1
  | Ctl.panicked, _ => { s1 with crashed := true }

/-- The moves of the program.  `ingest n` is `NotificationHandler` sending the
decoded notification on `SvixChannel`; the worker moves name the worker and
carry what the clock, the limiter and the client answer during the pass. -/
inductive Action where
  | main
  | ingest (n : Notification)
  | workerCancel (w : Nat)
  | workerPrimary (w : Nat) (stamp : String) (d : Delivery)
  | workerRetry (w : Nat) (now : Int) (d : Delivery)
  | workerResume (w : Nat)
deriving DecidableEq, Repr

/-- One move of the program; `none` when the move cannot be made in `s` (the
goroutine is parked, or the program has ended after a panic).  A handler
whose send finds `SvixChannel` full is parked; one whose send panics on the
closed channel is recovered by `net/http` and leaves the program as it was:
in both cases `ingest` is not a move. -/
def step (MAX_RETRIES oor : Int) (s : Sys) (a : Action) : Option Sys :=
  if s.crashed = true then none
  else
    match a with
    | Action.main => mainStep s
    | Action.ingest n =>
      match s.hs.SvixChannel.send n with
      | (Ctl.done, c) => some { s with hs := { s.hs with SvixChannel := c } }
      | _ => none
    | Action.workerCancel w =>
      match s.workers[w]? with
      | some wk =>
        match wk.pc, s.cancelled with
        | WorkerPc.running, true =>
          some { s with
            hs := workerCancel s.hs,
            workers := s.workers.set w
              { pc := WorkerPc.exited, decrements := wk.decrements + 1 } }
        | _, _ => none
      | none => none
    | Action.workerPrimary w stamp d =>
      match s.workers[w]? with
      | some wk =>
        match wk.pc with
        | WorkerPc.running =>
          (workerPrimary MAX_RETRIES oor s.hs stamp d).map (finish s w wk false)
        | _ => none
      | none => none
    | Action.workerRetry w now d =>
      match s.workers[w]? with
      | some wk =>
        match wk.pc with
        | WorkerPc.running =>
          (workerRetry MAX_RETRIES oor s.hs now d).map (finish s w wk true)
        | _ => none
      | none => none
    | Action.workerResume w =>
      match s.workers[w]? with
      | some wk =>
        match wk.pc with
        | WorkerPc.sending n =>
          match s.hs.svixRetryChannel.send n with
          | (Ctl.done, c) =>
            some { s with
              hs := { s.hs with svixRetryChannel := c },
              workers := s.workers.set w { wk with pc := WorkerPc.running } }
          | (Ctl.panicked, _) => some { s with crashed := true }
          | (Ctl.blocked, _) => none
        | _ => none
      | none => none

/-- A run of the program: the moves of `acts` in order. -/
def exec (MAX_RETRIES oor : Int) : Sys → List Action → Option Sys
  | s, [] => some s
  | s, a :: acts =>
    match step MAX_RETRIES oor s a with
    | some s1 => exec MAX_RETRIES oor s1 acts
    | none => none

/-- The notifications the HTTP handler sends during a run. -/
def ingested : List Action → List Notification
  | [] => []
  | Action.ingest n :: acts => n :: ingested acts
  | _ :: acts => ingested acts

/-- One for a worker that has returned, zero otherwise. -/
def Worker.hasExited (wk : Worker) : Nat :=
  match wk.pc with
  | WorkerPc.exited => 1
  | _ => 0

/-- The number of workers that have returned. -/
def exitedCount (ws : List Worker) : Nat :=
  (ws.map Worker.hasExited).sum

/-- The main goroutine has not yet begun `Stop`. -/
def MainPc.beforeStop : MainPc → Bool
  | MainPc.startLoop _ => true
  | MainPc.startInc _ => true
  | MainPc.started => true
  | _ => false

/-- How far `Start` has come, read off the state: at the loop test for index
`i` the loop has launched and counted `i` workers; between `go` and the
increment one more is launched than counted; once `Start` has returned the
workers launched and the increments made both number `NumWorkers` (none when
`NumWorkers` is negative); once `Stop` has returned the wait group is at
zero. -/
def startProgress (s : Sys) : Prop :=
  match s.main with
  | MainPc.startLoop i =>
    (s.increments : Int) = i ∧ (s.workers.length : Int) = i ∧
      i ≤ max 0 s.hs.Config.NumWorkers
  | MainPc.startInc i =>
    (s.increments : Int) = i ∧ (s.workers.length : Int) = i + 1 ∧
      i < s.hs.Config.NumWorkers
  | MainPc.stopped =>
    s.increments = s.workers.length ∧
      (s.workers.length : Int) = max 0 s.hs.Config.NumWorkers ∧ s.hs.waitGroup = 0
  | _ =>
    s.increments = s.workers.length ∧
      (s.workers.length : Int) = max 0 s.hs.Config.NumWorkers

/-- The bookkeeping of the worker pool: the active-worker counter is the
increments made by `Start` minus the workers that returned, the wait group
counts the workers launched and not yet returned, every worker has decremented
the counter once if it returned and never otherwise, and `Start` is where
`startProgress` says. -/
def Accounting (s : Sys) : Prop :=
  s.hs.activeWorkers = (s.increments : Int) - (exitedCount s.workers : Int) ∧
  s.hs.waitGroup = (s.workers.length : Int) - (exitedCount s.workers : Int) ∧
  (∀ wk ∈ s.workers, wk.decrements = wk.hasExited) ∧
  startProgress s

/-- The retries a notification has left: `MAX_RETRIES - RetryCount`, zero when
the count is at or beyond the maximum. -/
def budget (MAX_RETRIES : Int) (n : Notification) : Nat :=
  (MAX_RETRIES - n.Metadata.RetryCount).toNat

/-- The weight of a client call for id `x`: its cost, by whether it was made
in a retry-queue pass; calls for other ids weigh nothing. -/
def callCost (cost : Bool → Nat) (x : String) (c : Call) : Nat :=
  if c.EventId = x then cost c.fromRetry else 0

/-- The cost of the client calls a notification waiting in the retry queue can
still cause, counted for the notifications with id `x` only: one retry-pass
call for each retry it has left. -/
def retryWeight (MAX_RETRIES : Int) (cost : Bool → Nat) (x : String) (n : Notification) :
    Nat :=
  if n.Id = x then cost true * budget MAX_RETRIES n else 0

/-- The cost of the client calls a notification waiting in the primary queue
can still cause, counted for the notifications with id `x` only: one
primary-pass call and then what it can cause from the retry queue. -/
def primaryWeight (MAX_RETRIES : Int) (cost : Bool → Nat) (x : String) (n : Notification) :
    Nat :=
  if n.Id = x then cost false + cost true * budget MAX_RETRIES n else 0

/-- The weight of the notification a parked worker is about to put on the
retry queue. -/
def heldWeight (MAX_RETRIES : Int) (cost : Bool → Nat) (x : String) (wk : Worker) : Nat :=
  match wk.pc with
  | WorkerPc.sending n => retryWeight MAX_RETRIES cost x n
  | _ => 0

/-- The weight of the notification a statement sequence is parked on. -/
def pendingWeight (MAX_RETRIES : Int) (cost : Bool → Nat) (x : String) (ctl : Ctl)
    (item : Option Notification) : Nat :=
  match ctl, item with
  | Ctl.blocked, some n => retryWeight MAX_RETRIES cost x n
  | _, _ => 0

/-- The weight of the two queues. -/
def load (MAX_RETRIES : Int) (cost : Bool → Nat) (x : String) (hs : HookService) : Nat :=
  (hs.SvixChannel.buf.map (primaryWeight MAX_RETRIES cost x)).sum +
    (hs.svixRetryChannel.buf.map (retryWeight MAX_RETRIES cost x)).sum

/-- The cost of the client calls already made for id `x` plus the cost of
those the notifications with id `x` now in the program can still cause. -/
def potential (MAX_RETRIES : Int) (cost : Bool → Nat) (x : String) (s : Sys) : Nat :=
  load MAX_RETRIES cost x s.hs + (s.workers.map (heldWeight MAX_RETRIES cost x)).sum +
    (s.delivered.map (callCost cost x)).sum

/-- Nothing has happened to the service yet: while the main goroutine has not
begun `Stop`, the context is live, both queues are open and empty, no message
was processed and every worker launched is in its `select`. -/
def Quiet (s : Sys) : Prop :=
  s.main.beforeStop = true →
    s.cancelled = false ∧
    s.hs.SvixChannel.buf = [] ∧ s.hs.SvixChannel.closed = false ∧
    s.hs.svixRetryChannel.buf = [] ∧ s.hs.svixRetryChannel.closed = false ∧
    s.hs.messagesProcessed = 0 ∧ s.hs.lastMessageProcessedTime = "" ∧
    (∀ wk ∈ s.workers, wk.pc = WorkerPc.running)

/-- The configuration with the defaults of `config.go` and the credentials the
test sets. -/
def sampleConfig : Config :=
  { Port := 8080, NumWorkers := 5, ChannelBuffer := 100, SvixApiKey := "test",
    SvixAppId := "test", SvixApiMaxRate := 5, SvixApiMaxBurst := 10 }

/-- A service with no worker, an empty primary queue and the given retry
queue. -/
def sampleService (retry : Chan) : HookService :=
  { Config := sampleConfig, SvixChannel := { buf := [], cap := 100, closed := false },
    svixRetryChannel := retry, waitGroup := 0, messagesProcessed := 0, activeWorkers := 0,
    lastMessageProcessedTime := "" }

/-- The service `hs` with `n` put at the head of its primary queue. -/
def withPrimaryHead (hs : HookService) (n : Notification) : HookService :=
  { hs with SvixChannel := { hs.SvixChannel with buf := n :: hs.SvixChannel.buf } }

/-- The service `hs` with `n` put at the head of its retry queue. -/
def withRetryHead (hs : HookService) (n : Notification) : HookService :=
  { hs with svixRetryChannel := { hs.svixRetryChannel with buf := n :: hs.svixRetryChannel.buf } }

/-- The operations of the program that are handed a notification: the four
methods of `Notification`, `sendNotification` and `retryNotification` in any
service state and with any answer of the client, and the two receive arms of
the worker loop when the notification is the one received. -/
inductive NotificationOp where
  | setRetryTime
  | readyToRetry (now : Int)
  | incrementRetryCount
  | canRetry
  | send (hs : HookService) (d : Delivery)
  | retry (hs : HookService) (status : Int)
  | primaryPass (hs : HookService) (stamp : String) (d : Delivery)
  | retryPass (hs : HookService) (now : Int) (d : Delivery)
deriving DecidableEq, Repr

/-- The notification after an operation was applied to it. -/
def NotificationOp.apply (MAX_RETRIES oor : Int) (n : Notification) :
    NotificationOp → Notification
  | NotificationOp.setRetryTime => SetRetryTime oor n
  | NotificationOp.readyToRetry _ => n
  | NotificationOp.incrementRetryCount => (IncrementRetryCount MAX_RETRIES n).n
  | NotificationOp.canRetry => n
  | NotificationOp.send hs d => (sendNotification MAX_RETRIES oor hs n d).n
  | NotificationOp.retry hs status => (retryNotification MAX_RETRIES oor hs n status).n
  | NotificationOp.primaryPass hs stamp d =>
    match workerPrimary MAX_RETRIES oor (withPrimaryHead hs n) stamp d with
    | some it => it.item.getD n
    | none => n
  | NotificationOp.retryPass hs now d =>
    match workerRetry MAX_RETRIES oor (withRetryHead hs n) now d with
    | some it => it.item.getD n
    | none => n

/-- The notification after a sequence of operations. -/
def applyOps (MAX_RETRIES oor : Int) (n : Notification) (ops : List NotificationOp) :
    Notification :=
  ops.foldl (NotificationOp.apply MAX_RETRIES oor) n

/-- What a move adds to the active-worker counter, given where the main
goroutine stands: one in the increment step of `Start`, minus one in the
cancellation arm of a worker, nothing otherwise. -/
def counterChange : Action → MainPc → Int
  | Action.main, MainPc.startInc _ => 1
  | Action.workerCancel _, _ => -1
  | _, _ => 0

/-- The sample configuration with two workers. -/
def twoWorkers : Config := { sampleConfig with NumWorkers := 2 }

/-- The program booted with two workers. -/
def bootedTwo : Sys :=
  { hs := { Config := twoWorkers,
            SvixChannel := { buf := [], cap := 100, closed := false },
            svixRetryChannel := { buf := [], cap := 100, closed := false },
            waitGroup := 0, messagesProcessed := 0, activeWorkers := 0,
            lastMessageProcessedTime := "" },
    cancelled := false, crashed := false, main := MainPc.startLoop 0, workers := [],
    increments := 0, delivered := [] }

/-- The moves of `Start` with two workers. -/
def startTwo : List Action :=
  [Action.main, Action.main, Action.main, Action.main, Action.main]

/-- The program with two workers after `Start` returned. -/
def startedTwo : Sys :=
  { bootedTwo with
    hs := { bootedTwo.hs with waitGroup := 2, activeWorkers := 2 },
    main := MainPc.started,
    workers := [{ pc := WorkerPc.running, decrements := 0 },
                { pc := WorkerPc.running, decrements := 0 }],
    increments := 2 }

/-- A shutdown with two workers: `Start`, the three steps of `Stop` up to the
cancellation, both workers taking their cancellation arm, and the return of
`Wait`. -/
def shutdownTwo : List Action :=
  startTwo ++
    [Action.main, Action.main, Action.main, Action.workerCancel 1, Action.workerCancel 0,
     Action.main]

/-- The program with two workers after `Stop` returned. -/
def stoppedTwo : Sys :=
  { hs := { Config := twoWorkers,
            SvixChannel := { buf := [], cap := 100, closed := true },
            svixRetryChannel := { buf := [], cap := 100, closed := true },
            waitGroup := 0, messagesProcessed := 0, activeWorkers := 0,
            lastMessageProcessedTime := "" },
    cancelled := true, crashed := false, main := MainPc.stopped,
    workers := [{ pc := WorkerPc.exited, decrements := 1 },
                { pc := WorkerPc.exited, decrements := 1 }],
    increments := 2, delivered := [] }

/-- The sample configuration with one worker. -/
def oneWorker : Config := { sampleConfig with NumWorkers := 1 }

/-- The program booted with one worker. -/
def bootedOne : Sys :=
  { hs := { Config := oneWorker,
            SvixChannel := { buf := [], cap := 100, closed := false },
            svixRetryChannel := { buf := [], cap := 100, closed := false },
            waitGroup := 0, messagesProcessed := 0, activeWorkers := 0,
            lastMessageProcessedTime := "" },
    cancelled := false, crashed := false, main := MainPc.startLoop 0, workers := [],
    increments := 0, delivered := [] }

/-- A run with `MAX_RETRIES = 1` that uses up the budget of the sample
notification: `Start`, the ingestion, a first delivery answered 503, and one
retry, at clock reading 1700000000, answered 429. -/
def exhaustingRun : List Action :=
  [Action.main, Action.main, Action.main,
   Action.ingest sampleNotification,
   Action.workerPrimary 0 "2023-11-14T22:13:20Z" (Delivery.svixError 503),
   Action.workerRetry 0 1700000000 (Delivery.svixError 429)]

/-- The program with one worker after `exhaustingRun`: the sample notification
sits in the retry queue with retry count 1 and retry time 2000000000. -/
def exhaustedOne : Sys :=
  { hs := { Config := oneWorker,
            SvixChannel := { buf := [], cap := 100, closed := false },
            svixRetryChannel :=
              { buf := [sampleWith 1 2000000000], cap := 100, closed := false },
            waitGroup := 1, messagesProcessed := 1, activeWorkers := 1,
            lastMessageProcessedTime := "2023-11-14T22:13:20Z" },
    cancelled := false, crashed := false, main := MainPc.started,
    workers := [{ pc := WorkerPc.running, decrements := 0 }],
    increments := 1,
    delivered := [{ EventId := "n1", fromRetry := false }, { EventId := "n1", fromRetry := true }] }

/-- A service with empty queues whose processed counter stands at `c`. -/
def sampleServiceAt (c : Nat) : HookService :=
  { sampleService { buf := [], cap := 100, closed := false } with messagesProcessed := c }

/-! ## Theorems: the notification -/

/-- C1 (evaluation of the code): `SetRetryTime` does not read the clock.  For
retry counts 0, 1, 2, 3 it stores 1, 2, 4, 8 seconds expressed in nanoseconds,
whatever the time of the call; at the clock reading 1700000000 (Unix seconds)
and retry count 0 the stored value is not `now + 2 ^ 0`. -/
theorem SetRetryTime_stores_interval_only (oor : Int) :
    (SetRetryTime oor (sampleWith 0 0)).Metadata.RetryTime = 1000000000 ∧
    (SetRetryTime oor (sampleWith 1 0)).Metadata.RetryTime = 2000000000 ∧
    (SetRetryTime oor (sampleWith 2 0)).Metadata.RetryTime = 4000000000 ∧
    (SetRetryTime oor (sampleWith 3 0)).Metadata.RetryTime = 8000000000 ∧
    (SetRetryTime oor (sampleWith 0 0)).Metadata.RetryTime ≠ 1700000000 + 2 ^ 0 := by
  simp [SetRetryTime, sampleWith, sampleNotification, powDuration, wrapInt64, Second]

/-- C2 (evaluation of the code): at the clock reading 1700000000 a
notification with retry count 0 is ready to retry at the very time
`SetRetryTime` was called, and a notification with retry count 1 is still not
ready `2 ^ 1` seconds after the call. -/
theorem ReadyToRetry_after_SetRetryTime_at_sample (oor : Int) :
    ReadyToRetry 1700000000 (SetRetryTime oor (sampleWith 0 0)) = true ∧
    ReadyToRetry (1700000000 + 2 ^ 1) (SetRetryTime oor (sampleWith 1 0)) = false := by
  simp [ReadyToRetry, SetRetryTime, sampleWith, sampleNotification, powDuration, wrapInt64,
    Second]

/-- C5: below `MAX_RETRIES`, `IncrementRetryCount` adds one to the retry
count, returns the new count and no error, and changes nothing else; at
`MAX_RETRIES` it returns an error and leaves the notification as it was.  It
returns an error exactly when `CanRetry` is false, and whenever it does the
notification is unchanged. -/
theorem IncrementRetryCount_spec (MAX_RETRIES : Int) (n : Notification) :
    (n.Metadata.RetryCount < MAX_RETRIES →
      IncrementRetryCount MAX_RETRIES n =
        { n := { n with
                 Metadata := { n.Metadata with RetryCount := n.Metadata.RetryCount + 1 } },
          value := n.Metadata.RetryCount + 1, err := none }) ∧
    (n.Metadata.RetryCount = MAX_RETRIES →
      (IncrementRetryCount MAX_RETRIES n).err ≠ none ∧
      (IncrementRetryCount MAX_RETRIES n).n = n) ∧
    ((IncrementRetryCount MAX_RETRIES n).err ≠ none ↔ CanRetry MAX_RETRIES n = false) ∧
    ((IncrementRetryCount MAX_RETRIES n).err ≠ none →
      (IncrementRetryCount MAX_RETRIES n).n = n) := by
  by_cases h : n.Metadata.RetryCount < MAX_RETRIES
  · have hne : n.Metadata.RetryCount ≠ MAX_RETRIES := ne_of_lt h
    simp [IncrementRetryCount, CanRetry, h, hne]
  · simp [IncrementRetryCount, CanRetry, h]

/-- Witness for C5 with `MAX_RETRIES = 3`: at retry count 0 the call returns
1, at retry count 3 it leaves the notification unchanged. -/
theorem IncrementRetryCount_spec_witness :
    (sampleWith 0 0).Metadata.RetryCount < 3 ∧
    IncrementRetryCount 3 (sampleWith 0 0) =
      { n := { sampleWith 0 0 with
               Metadata := { (sampleWith 0 0).Metadata with
                             RetryCount := (sampleWith 0 0).Metadata.RetryCount + 1 } },
        value := (sampleWith 0 0).Metadata.RetryCount + 1, err := none } ∧
    (sampleWith 3 0).Metadata.RetryCount = 3 ∧
    (IncrementRetryCount 3 (sampleWith 3 0)).n = sampleWith 3 0 :=
  ⟨by decide, (IncrementRetryCount_spec 3 (sampleWith 0 0)).1 (by decide), rfl,
    ((IncrementRetryCount_spec 3 (sampleWith 3 0)).2.1 rfl).2⟩

/-! ## Theorems: retryNotification and the retry arm of the worker -/

/-- The method `SetRetryTime` writes the retry time and nothing else. -/
theorem SetRetryTime_frame (oor : Int) (n : Notification) :
    SetRetryTime oor n =
      { n with
        Metadata := { n.Metadata with RetryTime := (SetRetryTime oor n).Metadata.RetryTime } } ∧
    (SetRetryTime oor n).Metadata.RetryCount = n.Metadata.RetryCount ∧
    (SetRetryTime oor n).Id = n.Id := by
  simp [SetRetryTime]

/-- C3: when `CanRetry` holds and the status is 429 or at least 500,
`retryNotification` applies `SetRetryTime` to the notification and sends that
notification exactly once on the retry channel, making no client call and
touching nothing else of the service.  With the channel open and a slot free
the send goes through: the call runs to its end and the retry queue is the
old queue followed by that notification.  The notification keeps its retry
count and every field but the retry time. -/
theorem retryNotification_retries (MAX_RETRIES oor : Int) (hs : HookService)
    (n : Notification) (status : Int)
    (hcan : CanRetry MAX_RETRIES n = true)
    (hstatus : status = 429 ∨ status ≥ 500) :
    retryNotification MAX_RETRIES oor hs n status =
      { ctl := (hs.svixRetryChannel.send (SetRetryTime oor n)).1,
        hs := { hs with svixRetryChannel := (hs.svixRetryChannel.send (SetRetryTime oor n)).2 },
        n := SetRetryTime oor n,
        calls := 0 } ∧
    (hs.svixRetryChannel.closed = false →
      hs.svixRetryChannel.buf.length < hs.svixRetryChannel.cap →
      retryNotification MAX_RETRIES oor hs n status =
        { ctl := Ctl.done,
          hs := { hs with
                  svixRetryChannel :=
                    { hs.svixRetryChannel with
                      buf := hs.svixRetryChannel.buf ++ [SetRetryTime oor n] } },
          n := SetRetryTime oor n,
          calls := 0 }) ∧
    (SetRetryTime oor n).Metadata.RetryCount = n.Metadata.RetryCount ∧
    SetRetryTime oor n =
      { n with
        Metadata :=
          { n.Metadata with RetryTime := (SetRetryTime oor n).Metadata.RetryTime } } := by
  have hcond : status = 429 ∨ (status ≥ 500 ∧ CanRetry MAX_RETRIES n = true) := by
    rcases hstatus with h | h
    · exact Or.inl h
    · exact Or.inr ⟨h, hcan⟩
  have hrun : retryNotification MAX_RETRIES oor hs n status =
      { ctl := (hs.svixRetryChannel.send (SetRetryTime oor n)).1,
        hs := { hs with svixRetryChannel := (hs.svixRetryChannel.send (SetRetryTime oor n)).2 },
        n := SetRetryTime oor n,
        calls := 0 } := by
    simp only [retryNotification, if_pos hcond]
  refine ⟨hrun, ?_, (SetRetryTime_frame oor n).2.1, (SetRetryTime_frame oor n).1⟩
  intro hopen hroom
  rw [hrun]
  simp [Chan.send, hopen, hroom]

/-- Witness for C3 with `MAX_RETRIES = 3`: a notification with retry count 1
that met status 503, an empty open retry queue of capacity 100. -/
theorem retryNotification_retries_witness :
    CanRetry 3 (sampleWith 1 0) = true ∧
    (sampleService { buf := [], cap := 100, closed := false }).svixRetryChannel.closed = false ∧
    retryNotification 3 0 (sampleService { buf := [], cap := 100, closed := false })
        (sampleWith 1 0) 503 =
      { ctl := Ctl.done,
        hs := { sampleService { buf := [], cap := 100, closed := false } with
                svixRetryChannel :=
                  { (sampleService { buf := [], cap := 100, closed := false }).svixRetryChannel with
                    buf := (sampleService
                      { buf := [], cap := 100, closed := false }).svixRetryChannel.buf ++
                      [SetRetryTime 0 (sampleWith 1 0)] } },
        n := SetRetryTime 0 (sampleWith 1 0),
        calls := 0 } :=
  ⟨by decide, rfl,
    (retryNotification_retries 3 0 (sampleService { buf := [], cap := 100, closed := false })
      (sampleWith 1 0) 503 (by decide) (Or.inr (by decide))).2.1 rfl (by decide)⟩

/-- C4 (evaluation of the code): with `MAX_RETRIES = 3`, a notification whose
retry count is already 3 (so `CanRetry` is false) and the status 429,
`retryNotification` rewrites the retry time and puts the notification on the
retry queue. -/
theorem retryNotification_429_ignores_budget (oor : Int) :
    CanRetry 3 (sampleWith 3 0) = false ∧
    (retryNotification 3 oor (sampleService { buf := [], cap := 100, closed := false })
        (sampleWith 3 0) 429).hs.svixRetryChannel.buf = [sampleWith 3 8000000000] ∧
    (retryNotification 3 oor (sampleService { buf := [], cap := 100, closed := false })
        (sampleWith 3 0) 429).n.Metadata.RetryTime = 8000000000 := by
  simp [retryNotification, CanRetry, Chan.send, sampleService, SetRetryTime, sampleWith,
    sampleNotification, powDuration, wrapInt64, Second]

/-- C10: when the worker receives from the retry queue a notification that
is not ready to retry, the pass sends that same notification, unchanged, back
on the retry queue, makes no client call, and touches nothing else of the
service, the processed counter included.  On the open queue the send goes
through (the slot the notification left is free): the pass runs to its end,
the notification stands behind the others, and the retry queue holds the same
multiset of notifications as before. -/
theorem workerRetry_not_ready (MAX_RETRIES oor : Int) (hs : HookService)
    (n : Notification) (rest : List Notification) (now : Int) (d : Delivery)
    (hbuf : hs.svixRetryChannel.buf = n :: rest)
    (hnot : ReadyToRetry now n = false) :
    workerRetry MAX_RETRIES oor hs now d =
      some { ctl := (Chan.send { hs.svixRetryChannel with buf := rest } n).1,
             hs := { hs with
                     svixRetryChannel :=
                       (Chan.send { hs.svixRetryChannel with buf := rest } n).2 },
             item := some n,
             calls := 0 } ∧
    (∀ it, workerRetry MAX_RETRIES oor hs now d = some it →
      it.item = some n ∧ it.calls = 0 ∧
      it.hs.messagesProcessed = hs.messagesProcessed ∧
      it.hs.SvixChannel = hs.SvixChannel) ∧
    (hs.svixRetryChannel.closed = false →
      hs.svixRetryChannel.buf.length ≤ hs.svixRetryChannel.cap →
      workerRetry MAX_RETRIES oor hs now d =
        some { ctl := Ctl.done,
               hs := { hs with
                       svixRetryChannel := { hs.svixRetryChannel with buf := rest ++ [n] } },
               item := some n,
               calls := 0 } ∧
      ((rest ++ [n] : List Notification) : Multiset Notification) =
        (hs.svixRetryChannel.buf : Multiset Notification)) := by
  have hrun : workerRetry MAX_RETRIES oor hs now d =
      some { ctl := (Chan.send { hs.svixRetryChannel with buf := rest } n).1,
             hs := { hs with
                     svixRetryChannel :=
                       (Chan.send { hs.svixRetryChannel with buf := rest } n).2 },
             item := some n,
             calls := 0 } := by
    simp [workerRetry, Chan.recv, hbuf, hnot]
  refine ⟨hrun, ?_, ?_⟩
  · intro it hit
    rw [hrun] at hit
    cases hit
    exact ⟨rfl, rfl, rfl, rfl⟩
  · intro hopen hcap
    have hlen : rest.length < hs.svixRetryChannel.cap := by
      rw [hbuf] at hcap
      simpa using hcap
    refine ⟨?_, ?_⟩
    · rw [hrun]
      simp [Chan.send, hopen, hlen]
    · rw [hbuf]
      exact Multiset.coe_eq_coe.2 (List.perm_append_singleton n rest)

/-- Witness for C10: the retry queue holds two notifications, the first with
retry time 2000000000, and the clock reads 1700000000. -/
theorem workerRetry_not_ready_witness :
    ReadyToRetry 1700000000 (sampleWith 1 2000000000) = false ∧
    workerRetry 3 0
        (sampleService
          { buf := [sampleWith 1 2000000000, sampleWith 0 1000000000], cap := 100,
            closed := false })
        1700000000 Delivery.success =
      some { ctl := Ctl.done,
             hs := { sampleService
                       { buf := [sampleWith 1 2000000000, sampleWith 0 1000000000], cap := 100,
                         closed := false } with
                     svixRetryChannel :=
                       { (sampleService
                           { buf := [sampleWith 1 2000000000, sampleWith 0 1000000000],
                             cap := 100, closed := false }).svixRetryChannel with
                         buf := [sampleWith 0 1000000000] ++ [sampleWith 1 2000000000] } },
             item := some (sampleWith 1 2000000000),
             calls := 0 } :=
  ⟨by decide,
    ((workerRetry_not_ready 3 0
      (sampleService
        { buf := [sampleWith 1 2000000000, sampleWith 0 1000000000], cap := 100,
          closed := false })
      (sampleWith 1 2000000000) [sampleWith 0 1000000000] 1700000000 Delivery.success
      rfl (by decide)).2.2 rfl (by decide)).1⟩

/-! ## Theorems: the retry count never decreases and stays within the budget -/

/-- The function `retryNotification` leaves the id and the retry count of the notification
as they were. -/
theorem retryNotification_n (MAX_RETRIES oor : Int) (hs : HookService) (n : Notification)
    (status : Int) :
    (retryNotification MAX_RETRIES oor hs n status).n.Id = n.Id ∧
    (retryNotification MAX_RETRIES oor hs n status).n.Metadata.RetryCount =
      n.Metadata.RetryCount := by
  unfold retryNotification
  split_ifs <;> simp [SetRetryTime]

/-- The function `sendNotification` leaves the id and the retry count of the notification
as they were. -/
theorem sendNotification_n (MAX_RETRIES oor : Int) (hs : HookService) (n : Notification)
    (d : Delivery) :
    (sendNotification MAX_RETRIES oor hs n d).n.Id = n.Id ∧
    (sendNotification MAX_RETRIES oor hs n d).n.Metadata.RetryCount =
      n.Metadata.RetryCount := by
  cases d <;> simp [sendNotification, retryNotification_n]

/-- The method `IncrementRetryCount` never lowers the retry count, keeps it within
`MAX_RETRIES` when it was, and keeps the id. -/
theorem IncrementRetryCount_n (MAX_RETRIES : Int) (n : Notification) :
    (IncrementRetryCount MAX_RETRIES n).n.Id = n.Id ∧
    n.Metadata.RetryCount ≤ (IncrementRetryCount MAX_RETRIES n).n.Metadata.RetryCount ∧
    (n.Metadata.RetryCount ≤ MAX_RETRIES →
      (IncrementRetryCount MAX_RETRIES n).n.Metadata.RetryCount ≤ MAX_RETRIES) := by
  unfold IncrementRetryCount
  split_ifs with h
  · refine ⟨rfl, ?_, ?_⟩
    · simp
    · intro _
      simp only
      omega
  · simp

/-- One operation never lowers the retry count and keeps it within
`MAX_RETRIES` when it was. -/
theorem NotificationOp.apply_count (MAX_RETRIES oor : Int) (n : Notification)
    (op : NotificationOp) :
    n.Metadata.RetryCount ≤ (op.apply MAX_RETRIES oor n).Metadata.RetryCount ∧
    (n.Metadata.RetryCount ≤ MAX_RETRIES →
      (op.apply MAX_RETRIES oor n).Metadata.RetryCount ≤ MAX_RETRIES) := by
  cases op with
  | setRetryTime => simp [NotificationOp.apply, SetRetryTime]
  | readyToRetry now => simp [NotificationOp.apply]
  | incrementRetryCount =>
    exact ⟨(IncrementRetryCount_n MAX_RETRIES n).2.1, (IncrementRetryCount_n MAX_RETRIES n).2.2⟩
  | canRetry => simp [NotificationOp.apply]
  | send hs d => simp [NotificationOp.apply, sendNotification_n]
  | retry hs status => simp [NotificationOp.apply, retryNotification_n]
  | primaryPass hs stamp d =>
    simp [NotificationOp.apply, workerPrimary, withPrimaryHead, Chan.recv, Effect.toIteration,
      sendNotification_n]
  | retryPass hs now d =>
    have hinc := IncrementRetryCount_n MAX_RETRIES n
    simp only [NotificationOp.apply, workerRetry, withRetryHead, Chan.recv]
    split_ifs <;>
      simp [Effect.toIteration, sendNotification_n, hinc.2.1] <;>
      exact hinc.2.2

/-- A sequence of operations never lowers the retry count and keeps it within
`MAX_RETRIES` when it was. -/
theorem applyOps_count (MAX_RETRIES oor : Int) (ops : List NotificationOp) :
    ∀ n : Notification,
      n.Metadata.RetryCount ≤ (applyOps MAX_RETRIES oor n ops).Metadata.RetryCount ∧
      (n.Metadata.RetryCount ≤ MAX_RETRIES →
        (applyOps MAX_RETRIES oor n ops).Metadata.RetryCount ≤ MAX_RETRIES) := by
  induction ops with
  | nil => intro n; simp [applyOps]
  | cons op ops ih =>
    intro n
    have h1 := NotificationOp.apply_count MAX_RETRIES oor n op
    have h2 := ih (op.apply MAX_RETRIES oor n)
    simp only [applyOps, List.foldl_cons] at h2 ⊢
    exact ⟨le_trans h1.1 h2.1, fun h => h2.2 (h1.2 h)⟩

/-- C6: for a notification whose retry count starts within `MAX_RETRIES`,
along every finite sequence of operations handed that notification
(`SetRetryTime`, `ReadyToRetry`, `IncrementRetryCount`, `CanRetry`,
`sendNotification` and `retryNotification` with any answer of the client, the
primary-queue and the retry-queue pass of a worker) the retry count never
decreases from one point of the sequence to a later one and never exceeds
`MAX_RETRIES`. -/
theorem retryCount_invariant (MAX_RETRIES oor : Int) (n : Notification)
    (ops1 ops2 : List NotificationOp)
    (hstart : n.Metadata.RetryCount ≤ MAX_RETRIES) :
    n.Metadata.RetryCount ≤ (applyOps MAX_RETRIES oor n ops1).Metadata.RetryCount ∧
    (applyOps MAX_RETRIES oor n ops1).Metadata.RetryCount ≤
      (applyOps MAX_RETRIES oor n (ops1 ++ ops2)).Metadata.RetryCount ∧
    (applyOps MAX_RETRIES oor n (ops1 ++ ops2)).Metadata.RetryCount ≤ MAX_RETRIES := by
  have h1 := applyOps_count MAX_RETRIES oor ops1 n
  have h2 := applyOps_count MAX_RETRIES oor ops2 (applyOps MAX_RETRIES oor n ops1)
  have happ : applyOps MAX_RETRIES oor n (ops1 ++ ops2) =
      applyOps MAX_RETRIES oor (applyOps MAX_RETRIES oor n ops1) ops2 := by
    simp [applyOps, List.foldl_append]
  rw [happ]
  exact ⟨h1.1, h2.1, h2.2 (h1.2 hstart)⟩

/-- Witness for C6 with `MAX_RETRIES = 3`: a fresh notification is incremented
twice, then meets a retry-queue pass and two more increments. -/
theorem retryCount_invariant_witness :
    (sampleWith 0 0).Metadata.RetryCount ≤
      (applyOps 3 0 (sampleWith 0 0)
        [NotificationOp.incrementRetryCount, NotificationOp.incrementRetryCount]).Metadata.RetryCount ∧
    (applyOps 3 0 (sampleWith 0 0)
        [NotificationOp.incrementRetryCount, NotificationOp.incrementRetryCount]).Metadata.RetryCount ≤
      (applyOps 3 0 (sampleWith 0 0)
        ([NotificationOp.incrementRetryCount, NotificationOp.incrementRetryCount] ++
          [NotificationOp.retryPass (sampleService { buf := [], cap := 100, closed := false })
             1700000000 (Delivery.svixError 503),
           NotificationOp.incrementRetryCount,
           NotificationOp.incrementRetryCount])).Metadata.RetryCount ∧
    (applyOps 3 0 (sampleWith 0 0)
        ([NotificationOp.incrementRetryCount, NotificationOp.incrementRetryCount] ++
          [NotificationOp.retryPass (sampleService { buf := [], cap := 100, closed := false })
             1700000000 (Delivery.svixError 503),
           NotificationOp.incrementRetryCount,
           NotificationOp.incrementRetryCount])).Metadata.RetryCount ≤ 3 :=
  retryCount_invariant 3 0 (sampleWith 0 0)
    [NotificationOp.incrementRetryCount, NotificationOp.incrementRetryCount]
    [NotificationOp.retryPass (sampleService { buf := [], cap := 100, closed := false })
       1700000000 (Delivery.svixError 503),
     NotificationOp.incrementRetryCount,
     NotificationOp.incrementRetryCount]
    (by decide)

/-! ## Theorems: the worker pool -/

/-- Replacing one worker changes a sum over the workers by the difference of
the two summands. -/
theorem sum_map_set (f : Worker → Nat) :
    ∀ (ws : List Worker) (w : Nat) (wk wk1 : Worker), ws[w]? = some wk →
      ((ws.set w wk1).map f).sum + f wk = (ws.map f).sum + f wk1 := by
  intro ws
  induction ws with
  | nil => intro w wk wk1 h; simp at h
  | cons a ws ih =>
    intro w wk wk1 h
    cases w with
    | zero =>
      simp at h
      subst h
      simp
      omega
    | succ w =>
      simp only [List.getElem?_cons_succ] at h
      have := ih w wk wk1 h
      simp only [List.set_cons_succ, List.map_cons, List.sum_cons]
      omega

/-- At most every worker has returned, and fewer when one has not. -/
theorem exitedCount_le (ws : List Worker) :
    exitedCount ws ≤ ws.length ∧
    (∀ wk ∈ ws, wk.hasExited = 0 → exitedCount ws < ws.length) := by
  induction ws with
  | nil => simp [exitedCount]
  | cons a ws ih =>
    have ha : a.hasExited ≤ 1 := by
      unfold Worker.hasExited
      split <;> simp
    have hle := ih.1
    simp only [exitedCount, List.map_cons, List.sum_cons, List.length_cons] at *
    refine ⟨by omega, ?_⟩
    intro wk hwk h0
    rcases List.mem_cons.1 hwk with h | h
    · subst h
      omega
    · have := ih.2 wk h h0
      omega

/-- The function `retryNotification` touches nothing of the service but the
retry channel. -/
theorem retryNotification_hs (MAX_RETRIES oor : Int) (hs : HookService) (n : Notification)
    (status : Int) :
    (retryNotification MAX_RETRIES oor hs n status).hs.Config = hs.Config ∧
    (retryNotification MAX_RETRIES oor hs n status).hs.waitGroup = hs.waitGroup ∧
    (retryNotification MAX_RETRIES oor hs n status).hs.activeWorkers = hs.activeWorkers ∧
    (retryNotification MAX_RETRIES oor hs n status).hs.SvixChannel = hs.SvixChannel ∧
    (retryNotification MAX_RETRIES oor hs n status).hs.messagesProcessed = hs.messagesProcessed ∧
    (retryNotification MAX_RETRIES oor hs n status).hs.lastMessageProcessedTime =
      hs.lastMessageProcessedTime := by
  unfold retryNotification
  split_ifs <;> simp

/-- The function `sendNotification` touches nothing of the service but the
retry channel. -/
theorem sendNotification_hs (MAX_RETRIES oor : Int) (hs : HookService) (n : Notification)
    (d : Delivery) :
    (sendNotification MAX_RETRIES oor hs n d).hs.Config = hs.Config ∧
    (sendNotification MAX_RETRIES oor hs n d).hs.waitGroup = hs.waitGroup ∧
    (sendNotification MAX_RETRIES oor hs n d).hs.activeWorkers = hs.activeWorkers ∧
    (sendNotification MAX_RETRIES oor hs n d).hs.SvixChannel = hs.SvixChannel ∧
    (sendNotification MAX_RETRIES oor hs n d).hs.messagesProcessed = hs.messagesProcessed ∧
    (sendNotification MAX_RETRIES oor hs n d).hs.lastMessageProcessedTime =
      hs.lastMessageProcessedTime := by
  cases d <;> simp [sendNotification, retryNotification_hs]

/-- A primary-queue pass leaves the configuration, the wait group and the
active-worker counter as they were. -/
theorem workerPrimary_pool (MAX_RETRIES oor : Int) (hs : HookService) (stamp : String)
    (d : Delivery) (it : Iteration)
    (h : workerPrimary MAX_RETRIES oor hs stamp d = some it) :
    it.hs.Config = hs.Config ∧ it.hs.waitGroup = hs.waitGroup ∧
    it.hs.activeWorkers = hs.activeWorkers := by
  unfold workerPrimary at h
  split at h
  · simp at h
  · simp at h; subst h; simp
  · simp at h
    subst h
    simp only [Effect.toIteration, sendNotification_hs]
    unfold updateProcessedMessagesCount
    split_ifs <;> simp

/-- A retry-queue pass leaves the configuration, the wait group and the
active-worker counter as they were. -/
theorem workerRetry_pool (MAX_RETRIES oor : Int) (hs : HookService) (now : Int)
    (d : Delivery) (it : Iteration)
    (h : workerRetry MAX_RETRIES oor hs now d = some it) :
    it.hs.Config = hs.Config ∧ it.hs.waitGroup = hs.waitGroup ∧
    it.hs.activeWorkers = hs.activeWorkers := by
  unfold workerRetry at h
  split at h
  · simp at h
  · simp at h; subst h; simp
  · split at h
    · dsimp only at h
      split at h
      · simp at h; subst h; simp
      · simp at h; subst h; simp [Effect.toIteration, sendNotification_hs]
    · simp at h; subst h; simp



/-- The place of `Start` depends on the main goroutine, the two counts, the
configuration and the wait group only. -/
theorem startProgress_congr (s t : Sys) (hmain : t.main = s.main)
    (hinc : t.increments = s.increments) (hlen : t.workers.length = s.workers.length)
    (hconf : t.hs.Config = s.hs.Config) (hwg : t.hs.waitGroup = s.hs.waitGroup)
    (h : startProgress s) : startProgress t := by
  unfold startProgress at h ⊢
  rw [hmain, hinc, hlen, hconf, hwg]
  exact h

/-- Replacing a worker by one with the same exit flag and decrement count
keeps the bookkeeping of the pool. -/
theorem pool_set (ws : List Worker) (w : Nat) (wk wk1 : Worker)
    (hw : ws[w]? = some wk) (hflag : wk1.hasExited = wk.hasExited)
    (hdec : wk1.decrements = wk.decrements)
    (hall : ∀ a ∈ ws, a.decrements = a.hasExited) :
    exitedCount (ws.set w wk1) = exitedCount ws ∧
    (ws.set w wk1).length = ws.length ∧
    (∀ a ∈ ws.set w wk1, a.decrements = a.hasExited) := by
  have hsum := sum_map_set Worker.hasExited ws w wk wk1 hw
  refine ⟨?_, by simp, ?_⟩
  · unfold exitedCount
    omega
  · intro a ha
    rcases List.mem_or_eq_of_mem_set ha with h | h
    · exact hall a h
    · subst h
      rw [hdec, hflag]
      exact hall wk (List.getElem?_mem hw)

/-- The fields of the program after a loop pass. -/
theorem finish_fields (s : Sys) (w : Nat) (wk : Worker) (fromRetry : Bool)
    (it : Iteration) :
    (finish s w wk fromRetry it).hs = it.hs ∧ (finish s w wk fromRetry it).main = s.main ∧
    (finish s w wk fromRetry it).increments = s.increments ∧
    (finish s w wk fromRetry it).cancelled = s.cancelled ∧
    (finish s w wk fromRetry it).delivered = s.delivered ++ it.ids fromRetry ∧
    (finish s w wk fromRetry it).workers =
      (match it.ctl, it.item with
       | Ctl.blocked, some n => s.workers.set w { wk with pc := WorkerPc.sending n }
       | _, _ => s.workers) := by
  unfold finish
  split <;> simp [*]

/-- A loop pass of a worker in its `select` keeps the bookkeeping of the pool. -/
theorem Accounting_finish (s : Sys) (w : Nat) (wk : Worker) (fromRetry : Bool)
    (it : Iteration) (hA : Accounting s) (hw : s.workers[w]? = some wk)
    (hpc : wk.pc = WorkerPc.running)
    (hconf : it.hs.Config = s.hs.Config) (hwg : it.hs.waitGroup = s.hs.waitGroup)
    (hact : it.hs.activeWorkers = s.hs.activeWorkers) :
    Accounting (finish s w wk fromRetry it) := by
  obtain ⟨h1, h2, h3, h4⟩ := hA
  obtain ⟨f1, f2, f3, -, -, f6⟩ := finish_fields s w wk fromRetry it
  have hpool : exitedCount (finish s w wk fromRetry it).workers = exitedCount s.workers ∧
      (finish s w wk fromRetry it).workers.length = s.workers.length ∧
      (∀ a ∈ (finish s w wk fromRetry it).workers, a.decrements = a.hasExited) := by
    rw [f6]
    split
    · exact pool_set s.workers w wk _ hw (by simp [Worker.hasExited, hpc]) rfl h3
    · exact ⟨rfl, rfl, h3⟩
  refine ⟨?_, ?_, hpool.2.2, ?_⟩
  · rw [f1, hact, f3, hpool.1, h1]
  · rw [f1, hwg, hpool.2.1, hpool.1, h2]
  · exact startProgress_congr s _ f2 f3 hpool.2.1 (by rw [f1, hconf]) (by rw [f1, hwg]) h4

/-- A step of the main goroutine keeps the bookkeeping of the pool. -/
theorem Accounting_mainStep (s t : Sys) (hA : Accounting s) (h : mainStep s = some t) :
    Accounting t := by
  obtain ⟨h1, h2, h3, h4⟩ := hA
  unfold startProgress at h4
  unfold mainStep at h
  split at h
  · rename_i i hm
    rw [hm] at h4
    simp only at h4
    split_ifs at h with hi
    · simp only [Option.some.injEq] at h
      subst h
      refine ⟨?_, ?_, ?_, ?_⟩
      · simp [exitedCount, Worker.hasExited] at h1 ⊢
        exact h1
      · simp [exitedCount, Worker.hasExited] at h2 ⊢
        omega
      · intro a ha
        simp only [List.mem_append, List.mem_singleton] at ha
        rcases ha with ha | ha
        · exact h3 a ha
        · subst ha
          rfl
      · simp only [startProgress, List.length_append, List.length_singleton, Nat.cast_add,
          Nat.cast_one]
        omega
    · simp only [Option.some.injEq] at h
      subst h
      refine ⟨h1, h2, h3, ?_⟩
      simp only [startProgress]
      omega
  · rename_i i hm
    rw [hm] at h4
    simp only at h4
    simp only [Option.some.injEq] at h
    subst h
    refine ⟨?_, h2, h3, ?_⟩
    · simp only [Nat.cast_add, Nat.cast_one]
      omega
    · simp only [startProgress, Nat.cast_add, Nat.cast_one]
      omega
  · rename_i hm
    rw [hm] at h4
    simp only at h4
    split at h <;> simp only [Option.some.injEq] at h <;> subst h
    · exact ⟨h1, h2, h3, by simpa [startProgress] using h4⟩
    · exact ⟨h1, h2, h3, by simpa [startProgress, hm] using h4⟩
  · rename_i hm
    rw [hm] at h4
    simp only at h4
    split at h <;> simp only [Option.some.injEq] at h <;> subst h
    · exact ⟨h1, h2, h3, by simpa [startProgress] using h4⟩
    · exact ⟨h1, h2, h3, by simpa [startProgress, hm] using h4⟩
  · rename_i hm
    rw [hm] at h4
    simp only at h4
    simp only [Option.some.injEq] at h
    subst h
    exact ⟨h1, h2, h3, by simpa [startProgress] using h4⟩
  · rename_i hm
    rw [hm] at h4
    simp only at h4
    split_ifs at h with hz
    simp only [Option.some.injEq] at h
    subst h
    exact ⟨h1, h2, h3, by simpa [startProgress, hz] using h4⟩
  · simp at h

/-- Every move of the program keeps the bookkeeping of the pool. -/
theorem Accounting_step (MAX_RETRIES oor : Int) (s t : Sys) (a : Action)
    (hA : Accounting s) (h : step MAX_RETRIES oor s a = some t) : Accounting t := by
  unfold step at h
  split_ifs at h with hc
  cases a with
  | main => exact Accounting_mainStep s t hA h
  | ingest n =>
    simp only at h
    split at h
    · simp only [Option.some.injEq] at h
      subst h
      obtain ⟨h1, h2, h3, h4⟩ := hA
      exact ⟨h1, h2, h3, startProgress_congr s _ rfl rfl rfl rfl rfl h4⟩
    · simp at h
  | workerCancel w =>
    simp only at h
    split at h
    · rename_i wk hw
      split at h
      · rename_i hpc hcan
        simp only [Option.some.injEq] at h
        subst h
        obtain ⟨h1, h2, h3, h4⟩ := hA
        have hflag : wk.hasExited = 0 := by simp [Worker.hasExited, hpc]
        have hdec : wk.decrements = 0 := by rw [h3 wk (List.getElem?_mem hw), hflag]
        have hsum := sum_map_set Worker.hasExited s.workers w wk
          { pc := WorkerPc.exited, decrements := wk.decrements + 1 } hw
        have hlt := (exitedCount_le s.workers).2 wk (List.getElem?_mem hw) hflag
        have hnew :
            Worker.hasExited { pc := WorkerPc.exited, decrements := wk.decrements + 1 } = 1 :=
          rfl
        rw [hflag, hnew] at hsum
        refine ⟨?_, ?_, ?_, ?_⟩
        · simp only [workerCancel, exitedCount] at h1 ⊢
          omega
        · simp only [workerCancel, exitedCount, List.length_set] at h2 ⊢
          omega
        · intro a ha
          rcases List.mem_or_eq_of_mem_set ha with h | h
          · exact h3 a h
          · subst h
            simp [Worker.hasExited, hdec]
        · unfold startProgress at h4 ⊢
          simp only [workerCancel, List.length_set]
          cases hm : s.main <;> rw [hm] at h4 <;> simp only at h4 ⊢ <;> try exact h4
          exfalso
          unfold exitedCount at hlt h2
          omega
      · simp at h
    · simp at h
  | workerPrimary w stamp d =>
    simp only at h
    split at h
    · rename_i wk hw
      split at h
      · rename_i hpc
        obtain ⟨it, hit, rfl⟩ := Option.map_eq_some'.1 h
        obtain ⟨c1, c2, c3⟩ := workerPrimary_pool MAX_RETRIES oor s.hs stamp d it hit
        exact Accounting_finish s w wk _ it hA hw hpc c1 c2 c3
      · simp at h
    · simp at h
  | workerRetry w now d =>
    simp only at h
    split at h
    · rename_i wk hw
      split at h
      · rename_i hpc
        obtain ⟨it, hit, rfl⟩ := Option.map_eq_some'.1 h
        obtain ⟨c1, c2, c3⟩ := workerRetry_pool MAX_RETRIES oor s.hs now d it hit
        exact Accounting_finish s w wk _ it hA hw hpc c1 c2 c3
      · simp at h
    · simp at h
  | workerResume w =>
    simp only at h
    split at h
    · rename_i wk hw
      split at h
      · rename_i n hpc
        obtain ⟨h1, h2, h3, h4⟩ := hA
        split at h
        · simp only [Option.some.injEq] at h
          subst h
          obtain ⟨p1, p2, p3⟩ := pool_set s.workers w wk { wk with pc := WorkerPc.running } hw
            (by simp [Worker.hasExited, hpc]) rfl h3
          refine ⟨?_, ?_, p3, ?_⟩
          · simp only [p1]
            exact h1
          · simp only [p1, p2]
            exact h2
          · exact startProgress_congr s _ rfl rfl p2 rfl rfl h4
        · simp only [Option.some.injEq] at h
          subst h
          exact ⟨h1, h2, h3, startProgress_congr s _ rfl rfl rfl rfl rfl h4⟩
        · simp at h
      · simp at h
    · simp at h

/-- A property kept by every move holds after every run. -/
theorem exec_induction (MAX_RETRIES oor : Int) (P : Sys → Prop)
    (hstep : ∀ s t a, P s → step MAX_RETRIES oor s a = some t → P t) :
    ∀ (acts : List Action) (s t : Sys), P s → exec MAX_RETRIES oor s acts = some t → P t := by
  intro acts
  induction acts with
  | nil =>
    intro s t hs h
    simp only [exec, Option.some.injEq] at h
    subst h
    exact hs
  | cons a acts ih =>
    intro s t hs h
    simp only [exec] at h
    split at h
    · rename_i s1 h1
      exact ih s1 t (hstep s s1 a hs h1) h
    · simp at h

/-- The program as booted: the service as `New` built it, nothing launched. -/
theorem boot_fields (conf : Config) (s0 : Sys) (h : boot conf = some s0) :
    s0.hs.Config = conf ∧ s0.hs.waitGroup = 0 ∧ s0.hs.activeWorkers = 0 ∧
    s0.hs.messagesProcessed = 0 ∧ s0.hs.lastMessageProcessedTime = "" ∧
    s0.hs.SvixChannel.buf = [] ∧ s0.hs.SvixChannel.closed = false ∧
    s0.hs.svixRetryChannel.buf = [] ∧ s0.hs.svixRetryChannel.closed = false ∧
    s0.cancelled = false ∧ s0.crashed = false ∧ s0.main = MainPc.startLoop 0 ∧
    s0.workers = [] ∧ s0.increments = 0 ∧ s0.delivered = [] := by
  unfold boot at h
  split at h
  · rename_i c1 c2 hc1 hc2
    split at h
    · rename_i hs hnew
      simp only [Option.some.injEq] at h
      subst h
      unfold New at hnew
      split_ifs at hnew
      simp only [Option.some.injEq] at hnew
      subst hnew
      unfold makeChan at hc1 hc2
      split_ifs at hc1 hc2
      simp only [Option.some.injEq] at hc1 hc2
      subst hc1 hc2
      simp
    · simp at h
  · simp at h

/-- The booted program satisfies the bookkeeping of the pool. -/
theorem Accounting_boot (conf : Config) (s0 : Sys) (h : boot conf = some s0) :
    Accounting s0 := by
  obtain ⟨b1, b2, b3, -, -, -, -, -, -, -, -, b12, b13, b14, -⟩ := boot_fields conf s0 h
  refine ⟨?_, ?_, ?_, ?_⟩
  · simp [b3, b13, b14, exitedCount]
  · simp [b2, b13, exitedCount]
  · simp [b13]
  · simp [startProgress, b12, b13, b14]


/-- What a move does to the configuration and to the active-worker counter:
the configuration stays; the counter goes up by one in the increment step of
`Start`, down by one in the cancellation arm of a worker, and stays in every
other move. -/
theorem step_activeWorkers (MAX_RETRIES oor : Int) (s t : Sys) (a : Action)
    (h : step MAX_RETRIES oor s a = some t) :
    t.hs.Config = s.hs.Config ∧
    t.hs.activeWorkers = s.hs.activeWorkers + counterChange a s.main := by
  unfold step at h
  split_ifs at h with hc
  cases a with
  | main =>
    simp only at h
    unfold mainStep at h
    split at h <;> rename_i hm <;> simp only [hm, counterChange]
    · split_ifs at h <;> simp only [Option.some.injEq] at h <;> subst h <;> simp
    · simp only [Option.some.injEq] at h
      subst h
      simp
    · split at h <;> simp only [Option.some.injEq] at h <;> subst h <;> simp
    · split at h <;> simp only [Option.some.injEq] at h <;> subst h <;> simp
    · simp only [Option.some.injEq] at h
      subst h
      simp
    · split_ifs at h
      simp only [Option.some.injEq] at h
      subst h
      simp
    · simp at h
  | ingest n =>
    simp only at h
    split at h
    · simp only [Option.some.injEq] at h
      subst h
      simp [counterChange]
    · simp at h
  | workerCancel w =>
    simp only at h
    split at h
    · split at h
      · simp only [Option.some.injEq] at h
        subst h
        exact ⟨rfl, by simp only [workerCancel, counterChange]; omega⟩
      · simp at h
    · simp at h
  | workerPrimary w stamp d =>
    simp only at h
    split at h
    · rename_i wk hw
      split at h
      · obtain ⟨it, hit, rfl⟩ := Option.map_eq_some'.1 h
        obtain ⟨c1, -, c3⟩ := workerPrimary_pool MAX_RETRIES oor s.hs stamp d it hit
        obtain ⟨f1, -⟩ := finish_fields s w wk _ it
        rw [f1, c1, c3]
        simp [counterChange]
      · simp at h
    · simp at h
  | workerRetry w now d =>
    simp only at h
    split at h
    · rename_i wk hw
      split at h
      · obtain ⟨it, hit, rfl⟩ := Option.map_eq_some'.1 h
        obtain ⟨c1, -, c3⟩ := workerRetry_pool MAX_RETRIES oor s.hs now d it hit
        obtain ⟨f1, -⟩ := finish_fields s w wk _ it
        rw [f1, c1, c3]
        simp [counterChange]
      · simp at h
    · simp at h
  | workerResume w =>
    simp only at h
    split at h
    · split at h
      · split at h
        · simp only [Option.some.injEq] at h
          subst h
          simp [counterChange]
        · simp only [Option.some.injEq] at h
          subst h
          simp [counterChange]
        · simp at h
      · simp at h
    · simp at h

/-- While nothing is ingested, a move leaves the service as `Start` found
it. -/
theorem Quiet_step (MAX_RETRIES oor : Int) (s t : Sys) (a : Action)
    (hQ : Quiet s) (ha : ∀ n, a ≠ Action.ingest n)
    (h : step MAX_RETRIES oor s a = some t) : Quiet t := by
  unfold step at h
  split_ifs at h with hc
  cases a with
  | main =>
    simp only at h
    unfold mainStep at h
    intro hb
    split at h <;> rename_i hm
    · have hq := hQ (by simp [hm, MainPc.beforeStop])
      split_ifs at h <;> simp only [Option.some.injEq] at h <;> subst h
      · obtain ⟨q1, q2, q3, q4, q5, q6, q7, q8⟩ := hq
        refine ⟨q1, q2, q3, q4, q5, q6, q7, ?_⟩
        intro wk hwk
        simp only [List.mem_append, List.mem_singleton] at hwk
        rcases hwk with hwk | hwk
        · exact q8 wk hwk
        · subst hwk
          rfl
      · exact hq
    · have hq := hQ (by simp [hm, MainPc.beforeStop])
      simp only [Option.some.injEq] at h
      subst h
      exact hq
    · have hq := hQ (by simp [hm, MainPc.beforeStop])
      split at h <;> rename_i hcl <;> simp only [Option.some.injEq] at h <;> subst h
      · simp [MainPc.beforeStop] at hb
      · simp [Chan.close, hq.2.2.1] at hcl
    · split at h <;> simp only [Option.some.injEq] at h <;> subst h <;>
        simp [MainPc.beforeStop, hm] at hb
    · simp only [Option.some.injEq] at h
      subst h
      simp [MainPc.beforeStop] at hb
    · split_ifs at h
      simp only [Option.some.injEq] at h
      subst h
      simp [MainPc.beforeStop] at hb
    · simp at h
  | ingest n => exact absurd rfl (ha n)
  | workerCancel w =>
    simp only at h
    split at h
    · split at h
      · rename_i hpc hcan
        simp only [Option.some.injEq] at h
        subst h
        intro hb
        have hq := hQ hb
        rw [hq.1] at hcan
        exact absurd hcan (by simp)
      · simp at h
    · simp at h
  | workerPrimary w stamp d =>
    simp only at h
    split at h
    · rename_i wk hw
      split at h
      · obtain ⟨it, hit, rfl⟩ := Option.map_eq_some'.1 h
        obtain ⟨-, f2, -⟩ := finish_fields s w wk _ it
        intro hb
        rw [f2] at hb
        have hq := hQ hb
        simp [workerPrimary, Chan.recv, hq.2.1, hq.2.2.1] at hit
      · simp at h
    · simp at h
  | workerRetry w now d =>
    simp only at h
    split at h
    · rename_i wk hw
      split at h
      · obtain ⟨it, hit, rfl⟩ := Option.map_eq_some'.1 h
        obtain ⟨-, f2, -⟩ := finish_fields s w wk _ it
        intro hb
        rw [f2] at hb
        have hq := hQ hb
        simp [workerRetry, Chan.recv, hq.2.2.2.1, hq.2.2.2.2.1] at hit
      · simp at h
    · simp at h
  | workerResume w =>
    simp only at h
    split at h
    · rename_i wk hw
      split at h
      · rename_i n hpc
        intro hb
        have hmain : t.main = s.main := by
          split at h
          · simp only [Option.some.injEq] at h
            subst h
            rfl
          · simp only [Option.some.injEq] at h
            subst h
            rfl
          · simp at h
        rw [hmain] at hb
        have hq := hQ hb
        have := hq.2.2.2.2.2.2.2 wk (List.getElem?_mem hw)
        rw [hpc] at this
        simp at this
      · simp at h
    · simp at h

/-- A property kept by every move that ingests nothing holds after every run
that ingests nothing. -/
theorem exec_induction_quiet (MAX_RETRIES oor : Int) (P : Sys → Prop)
    (hstep : ∀ s t a, P s → (∀ n, a ≠ Action.ingest n) →
      step MAX_RETRIES oor s a = some t → P t) :
    ∀ (acts : List Action) (s t : Sys), ingested acts = [] → P s →
      exec MAX_RETRIES oor s acts = some t → P t := by
  intro acts
  induction acts with
  | nil =>
    intro s t _ hs h
    simp only [exec, Option.some.injEq] at h
    subst h
    exact hs
  | cons a acts ih =>
    intro s t hing hs h
    simp only [exec] at h
    split at h
    · rename_i s1 h1
      have hsplit : (∀ n, a ≠ Action.ingest n) ∧ ingested acts = [] := by
        cases a <;> simp_all [ingested]
      exact ih s1 t hsplit.2 (hstep s s1 a hs hsplit.1 h1) h
    · simp at h

/-- When every worker is in its `select`, none has returned. -/
theorem exitedCount_running (ws : List Worker) (h : ∀ wk ∈ ws, wk.pc = WorkerPc.running) :
    exitedCount ws = 0 := by
  induction ws with
  | nil => simp [exitedCount]
  | cons a ws ih =>
    have ha := h a (List.mem_cons_self a ws)
    have := ih (fun wk hwk => h wk (List.mem_cons_of_mem a hwk))
    simp only [exitedCount, List.map_cons, List.sum_cons] at this ⊢
    simp [Worker.hasExited, ha, this]

/-- The configuration of the service never changes. -/
theorem exec_Config (MAX_RETRIES oor : Int) (acts : List Action) (s t : Sys)
    (h : exec MAX_RETRIES oor s acts = some t) : t.hs.Config = s.hs.Config :=
  exec_induction MAX_RETRIES oor (fun u => u.hs.Config = s.hs.Config)
    (fun u v a hu hstep => (step_activeWorkers MAX_RETRIES oor u v a hstep).1.trans hu)
    acts s t rfl h

/-- C8: in every state the program reaches from its boot, the active-worker
counter equals the increments made by `Start` minus the workers that have
returned, and every worker has decremented the counter once if it has returned
and never otherwise; a move changes the counter only in the increment step of
`Start` (by plus one) and in the cancellation arm of a worker (by minus one).
Once `Stop` has returned, `Start` had launched and counted `NumWorkers`
workers, all of them have returned, and `GetStats` reports `numWorkers = 0`. -/
theorem activeWorkers_accounting (MAX_RETRIES oor : Int) (conf : Config) (s0 s : Sys)
    (acts : List Action)
    (hboot : boot conf = some s0)
    (hrun : exec MAX_RETRIES oor s0 acts = some s) :
    s.hs.activeWorkers = (s.increments : Int) - (exitedCount s.workers : Int) ∧
    (∀ wk ∈ s.workers, wk.decrements = wk.hasExited) ∧
    (∀ a t, step MAX_RETRIES oor s a = some t →
      t.hs.activeWorkers = s.hs.activeWorkers + counterChange a s.main) ∧
    (s.main = MainPc.stopped →
      (s.workers.length : Int) = max 0 conf.NumWorkers ∧
      s.increments = s.workers.length ∧
      exitedCount s.workers = s.workers.length ∧
      (GetStats s.hs).numWorkers = 0) := by
  have hA : Accounting s :=
    exec_induction MAX_RETRIES oor Accounting (Accounting_step MAX_RETRIES oor) acts s0 s
      (Accounting_boot conf s0 hboot) hrun
  have hconf : s.hs.Config = conf :=
    (exec_Config MAX_RETRIES oor acts s0 s hrun).trans (boot_fields conf s0 hboot).1
  obtain ⟨h1, h2, h3, h4⟩ := hA
  refine ⟨h1, h3, fun a t hstep => (step_activeWorkers MAX_RETRIES oor s t a hstep).2, ?_⟩
  intro hstop
  unfold startProgress at h4
  rw [hstop, hconf] at h4
  simp only at h4
  obtain ⟨p1, p2, p3⟩ := h4
  have hex : exitedCount s.workers = s.workers.length := by
    have := (exitedCount_le s.workers).1
    omega
  refine ⟨p2, p1, hex, ?_⟩
  simp only [GetStats]
  rw [h1, p1, hex]
  omega

/-- Witness for C8: two workers, a run through `Start` and `Stop` in which
both workers take their cancellation arm. -/
theorem activeWorkers_accounting_witness :
    boot twoWorkers = some bootedTwo ∧
    exec 3 0 bootedTwo shutdownTwo = some stoppedTwo ∧
    stoppedTwo.main = MainPc.stopped ∧
    (GetStats stoppedTwo.hs).numWorkers = 0 :=
  ⟨by decide, by decide, rfl,
    ((activeWorkers_accounting 3 0 twoWorkers bootedTwo stoppedTwo shutdownTwo
      (by decide) (by decide)).2.2.2 rfl).2.2.2⟩

/-- A run that begins with a move that can be made continues from the state
the move leads to. -/
theorem exec_cons_of_step (MAX_RETRIES oor : Int) (s s1 : Sys) (a : Action)
    (acts : List Action) (h : step MAX_RETRIES oor s a = some s1) :
    exec MAX_RETRIES oor s (a :: acts) = exec MAX_RETRIES oor s1 acts := by
  simp only [exec, h]

/-- The loop of `Start` runs to its end: from the loop test with `k` workers
still to launch, `2 * k + 1` steps of the main goroutine reach the return of
`Start`. -/
theorem Start_loop_returns (MAX_RETRIES oor : Int) :
    ∀ (k : Nat) (s : Sys) (i : Int), s.crashed = false → s.main = MainPc.startLoop i →
      s.hs.Config.NumWorkers - i = k →
      ∃ t, exec MAX_RETRIES oor s (List.replicate (2 * k + 1) Action.main) = some t ∧
        t.main = MainPc.started := by
  intro k
  induction k with
  | zero =>
    intro s i hc hm hk
    have hnot : ¬ i < s.hs.Config.NumWorkers := by omega
    refine ⟨{ s with main := MainPc.started }, ?_, rfl⟩
    simp [exec, step, hc, mainStep, hm, hnot]
  | succ k ih =>
    intro s i hc hm hk
    have hlt : i < s.hs.Config.NumWorkers := by omega
    have hrep : List.replicate (2 * (k + 1) + 1) Action.main =
        Action.main :: Action.main :: List.replicate (2 * k + 1) Action.main := by
      simp [List.replicate_succ, Nat.mul_succ]
    have h1 : step MAX_RETRIES oor s Action.main =
        some { s with
          hs := { s.hs with waitGroup := s.hs.waitGroup + 1 },
          workers := s.workers ++ [{ pc := WorkerPc.running, decrements := 0 }],
          main := MainPc.startInc i } := by
      simp [step, hc, mainStep, hm, hlt]
    have h2 : step MAX_RETRIES oor
        { s with
          hs := { s.hs with waitGroup := s.hs.waitGroup + 1 },
          workers := s.workers ++ [{ pc := WorkerPc.running, decrements := 0 }],
          main := MainPc.startInc i } Action.main =
        some { s with
          hs := { s.hs with
                  waitGroup := s.hs.waitGroup + 1, activeWorkers := s.hs.activeWorkers + 1 },
          workers := s.workers ++ [{ pc := WorkerPc.running, decrements := 0 }],
          increments := s.increments + 1,
          main := MainPc.startLoop (i + 1) } := by
      simp [step, hc, mainStep]
    rw [hrep, exec_cons_of_step MAX_RETRIES oor _ _ _ _ h1,
      exec_cons_of_step MAX_RETRIES oor _ _ _ _ h2]
    refine ih _ (i + 1) ?_ ?_ ?_
    · exact hc
    · rfl
    · simp only
      omega

/-- C9: for a service freshly built with `NumWorkers = n`, `n ≥ 0`, and a run
in which nothing is ingested, once `Start` has returned (and `Stop` has not
begun) exactly `n` workers were launched, the counter was incremented exactly
`n` times, every worker is in its `select`, and `GetStats` reports
`numWorkers = n`, empty queues, `messagesProcessed = 0` and
`lastMessageProcessed = ""`.  `Start` does return: `2 * n + 1` steps of the
main goroutine lead from the boot to its return. -/
theorem Start_stats (MAX_RETRIES oor : Int) (conf : Config) (s0 s : Sys)
    (acts : List Action)
    (hn : 0 ≤ conf.NumWorkers)
    (hboot : boot conf = some s0)
    (hquiet : ingested acts = [])
    (hrun : exec MAX_RETRIES oor s0 acts = some s)
    (hstarted : s.main = MainPc.started) :
    GetStats s.hs =
      { numWorkers := conf.NumWorkers, svixChannelSize := 0, svixRetryChannelSize := 0,
        messagesProcessed := 0, lastMessageProcessed := "" } ∧
    (s.workers.length : Int) = conf.NumWorkers ∧
    (s.increments : Int) = conf.NumWorkers ∧
    (∀ wk ∈ s.workers, wk.pc = WorkerPc.running) ∧
    (∃ t, exec MAX_RETRIES oor s0
        (List.replicate (2 * conf.NumWorkers.toNat + 1) Action.main) = some t ∧
      t.main = MainPc.started) := by
  obtain ⟨b1, b2, b3, b4, b5, b6, b7, b8, b9, b10, b11, b12, b13, b14, b15⟩ :=
    boot_fields conf s0 hboot
  have hreturns := Start_loop_returns MAX_RETRIES oor conf.NumWorkers.toNat s0 0 b11 b12
    (by rw [b1]; omega)
  have hA : Accounting s :=
    exec_induction MAX_RETRIES oor Accounting (Accounting_step MAX_RETRIES oor) acts s0 s
      (Accounting_boot conf s0 hboot) hrun
  have hQ0 : Quiet s0 := by
    intro _
    refine ⟨b10, b6, b7, b8, b9, b4, b5, ?_⟩
    simp [b13]
  have hQ : Quiet s :=
    exec_induction_quiet MAX_RETRIES oor Quiet
      (fun u v a hu ha hstep => Quiet_step MAX_RETRIES oor u v a hu ha hstep) acts s0 s
      hquiet hQ0 hrun
  have hconf : s.hs.Config = conf :=
    (exec_Config MAX_RETRIES oor acts s0 s hrun).trans b1
  obtain ⟨-, q2, -, q4, -, q6, q7, q8⟩ := hQ (by simp [hstarted, MainPc.beforeStop])
  obtain ⟨h1, -, -, h4⟩ := hA
  unfold startProgress at h4
  rw [hstarted, hconf] at h4
  simp only at h4
  obtain ⟨p1, p2⟩ := h4
  have hex := exitedCount_running s.workers q8
  have hlen : (s.workers.length : Int) = conf.NumWorkers := by
    rw [p2]
    exact max_eq_right hn
  have hact : s.hs.activeWorkers = conf.NumWorkers := by
    rw [h1, hex, p1, hlen]
    simp
  refine ⟨?_, hlen, by rw [p1, hlen], q8, hreturns⟩
  simp [GetStats, hact, q2, q4, q6, q7]

/-- Witness for C9: two workers, the five steps of `Start`. -/
theorem Start_stats_witness :
    (0 : Int) ≤ twoWorkers.NumWorkers ∧
    boot twoWorkers = some bootedTwo ∧
    ingested startTwo = [] ∧
    exec 3 0 bootedTwo startTwo = some startedTwo ∧
    startedTwo.main = MainPc.started ∧
    GetStats startedTwo.hs =
      { numWorkers := twoWorkers.NumWorkers, svixChannelSize := 0, svixRetryChannelSize := 0,
        messagesProcessed := 0, lastMessageProcessed := "" } :=
  ⟨by decide, by decide, rfl, by decide, rfl,
    (Start_stats 3 0 twoWorkers bootedTwo startedTwo startTwo (by decide) (by decide) rfl
      (by decide) rfl).1⟩

/-! ## Theorems: the number of delivery attempts -/

/-- A send adds at most the weight of the notification sent, counting the
notification a parked sender still holds. -/
theorem Chan.send_weight (f : Notification → Nat) (c : Chan) (n : Notification) :
    ((c.send n).2.buf.map f).sum + (if (c.send n).1 = Ctl.blocked then f n else 0) ≤
      (c.buf.map f).sum + f n := by
  unfold Chan.send
  split_ifs <;> simp_all

/-- The weight of a notification does not depend on its retry time. -/
theorem retryWeight_SetRetryTime (MAX_RETRIES oor : Int) (cost : Bool → Nat) (x : String)
    (n : Notification) :
    retryWeight MAX_RETRIES cost x (SetRetryTime oor n) = retryWeight MAX_RETRIES cost x n := by
  simp [retryWeight, budget, SetRetryTime]

/-- A notification weighs one primary-pass call more in the primary queue than
in the retry queue. -/
theorem primaryWeight_eq (MAX_RETRIES : Int) (cost : Bool → Nat) (x : String)
    (n : Notification) :
    primaryWeight MAX_RETRIES cost x n =
      retryWeight MAX_RETRIES cost x n + (if n.Id = x then cost false else 0) := by
  unfold primaryWeight retryWeight
  split_ifs <;> omega

/-- The function `retryNotification` makes no client call and puts back at
most the weight of the notification. -/
theorem retryNotification_weight (MAX_RETRIES oor : Int) (cost : Bool → Nat) (x : String)
    (hs : HookService) (n : Notification) (status : Int) :
    (retryNotification MAX_RETRIES oor hs n status).calls = 0 ∧
    load MAX_RETRIES cost x (retryNotification MAX_RETRIES oor hs n status).hs +
        pendingWeight MAX_RETRIES cost x (retryNotification MAX_RETRIES oor hs n status).ctl
          (some (retryNotification MAX_RETRIES oor hs n status).n) ≤
      load MAX_RETRIES cost x hs + retryWeight MAX_RETRIES cost x n := by
  unfold retryNotification
  split_ifs with hcond
  · refine ⟨rfl, ?_⟩
    have hw := Chan.send_weight (retryWeight MAX_RETRIES cost x) hs.svixRetryChannel
      (SetRetryTime oor n)
    rw [retryWeight_SetRetryTime] at hw
    simp only [load]
    cases hctl : (hs.svixRetryChannel.send (SetRetryTime oor n)).1 <;>
      simp only [hctl, pendingWeight, retryWeight_SetRetryTime] <;>
      simp [hctl] at hw <;> omega
  · simp [pendingWeight]

/-- The cost of the calls of a loop pass for id `x`. -/
theorem ids_cost (cost : Bool → Nat) (x : String) (e : Effect) (fromRetry : Bool) :
    ((e.toIteration.ids fromRetry).map (callCost cost x)).sum =
      e.calls * (if e.n.Id = x then cost fromRetry else 0) := by
  simp [Iteration.ids, Effect.toIteration, callCost, List.map_replicate, List.sum_replicate]

/-- The function `sendNotification` calls the client at most once and then
puts back at most the retry weight of the notification. -/
theorem sendNotification_weight (MAX_RETRIES oor : Int) (cost : Bool → Nat) (x : String)
    (fromRetry : Bool) (hs : HookService) (n : Notification) (d : Delivery) :
    load MAX_RETRIES cost x (sendNotification MAX_RETRIES oor hs n d).hs +
        pendingWeight MAX_RETRIES cost x (sendNotification MAX_RETRIES oor hs n d).ctl
          (some (sendNotification MAX_RETRIES oor hs n d).n) +
        (((sendNotification MAX_RETRIES oor hs n d).toIteration.ids fromRetry).map
          (callCost cost x)).sum ≤
      load MAX_RETRIES cost x hs + retryWeight MAX_RETRIES cost x n +
        (if n.Id = x then cost fromRetry else 0) := by
  rw [ids_cost, (sendNotification_n MAX_RETRIES oor hs n d).1]
  cases d with
  | limiterError =>
    simp only [sendNotification, pendingWeight, zero_mul, add_zero]
    omega
  | success =>
    simp only [sendNotification, pendingWeight, one_mul, add_zero]
    omega
  | svixError status =>
    obtain ⟨hc, hw⟩ := retryNotification_weight MAX_RETRIES oor cost x hs n status
    simp only [sendNotification, hc, zero_add, one_mul]
    omega
  | otherError =>
    simp only [sendNotification, pendingWeight, one_mul, add_zero]
    omega

/-- The weight of the queues does not depend on the processed counter. -/
theorem load_updateProcessedMessagesCount (MAX_RETRIES : Int) (cost : Bool → Nat)
    (x stamp : String) (hs : HookService) :
    load MAX_RETRIES cost x (updateProcessedMessagesCount stamp hs) =
      load MAX_RETRIES cost x hs := by
  unfold updateProcessedMessagesCount
  split_ifs <;> rfl

/-- A primary-queue pass puts back, in calls made and in weight left, at most
the weight it took out of the queue. -/
theorem workerPrimary_weight (MAX_RETRIES oor : Int) (cost : Bool → Nat) (x : String)
    (hs : HookService) (stamp : String) (d : Delivery) (it : Iteration)
    (h : workerPrimary MAX_RETRIES oor hs stamp d = some it) :
    load MAX_RETRIES cost x it.hs + pendingWeight MAX_RETRIES cost x it.ctl it.item +
        ((it.ids false).map (callCost cost x)).sum ≤
      load MAX_RETRIES cost x hs := by
  unfold workerPrimary Chan.recv at h
  split at h
  · simp at h
  · simp only [Option.some.injEq] at h
    subst h
    simp [pendingWeight, Iteration.ids]
  · rename_i n rest hrecv
    simp only [Option.some.injEq] at h
    subst h
    split at hrecv
    · rename_i m tail hbuf
      simp only [Recv.item.injEq] at hrecv
      obtain ⟨rfl, rfl⟩ := hrecv
      have hw := sendNotification_weight MAX_RETRIES oor cost x false
        (updateProcessedMessagesCount stamp
          { hs with SvixChannel := { hs.SvixChannel with buf := tail } }) m d
      rw [load_updateProcessedMessagesCount] at hw
      have hload : load MAX_RETRIES cost x hs =
          load MAX_RETRIES cost x
            { hs with SvixChannel := { hs.SvixChannel with buf := tail } } +
            primaryWeight MAX_RETRIES cost x m := by
        simp only [load, hbuf, List.map_cons, List.sum_cons]
        omega
      rw [hload, primaryWeight_eq, ← Nat.add_assoc]
      exact hw
    · split_ifs at hrecv

/-- A successful increment uses up one retry of the budget. -/
theorem retryWeight_IncrementRetryCount (MAX_RETRIES : Int) (cost : Bool → Nat) (x : String)
    (n : Notification) (h : (IncrementRetryCount MAX_RETRIES n).err.isSome = false) :
    retryWeight MAX_RETRIES cost x (IncrementRetryCount MAX_RETRIES n).n +
        (if (IncrementRetryCount MAX_RETRIES n).n.Id = x then cost true else 0) =
      retryWeight MAX_RETRIES cost x n := by
  unfold IncrementRetryCount at h ⊢
  split_ifs at h with hlt
  · simp only [if_pos hlt, retryWeight, budget]
    split_ifs
    · have hb : (MAX_RETRIES - n.Metadata.RetryCount).toNat =
          (MAX_RETRIES - (n.Metadata.RetryCount + 1)).toNat + 1 := by omega
      rw [hb, Nat.mul_succ]
    · rfl
  · simp at h

/-- A retry-queue pass puts back, in calls made and in weight left, at most
the weight it took out of the queue. -/
theorem workerRetry_weight (MAX_RETRIES oor : Int) (cost : Bool → Nat) (x : String)
    (hs : HookService) (now : Int) (d : Delivery) (it : Iteration)
    (h : workerRetry MAX_RETRIES oor hs now d = some it) :
    load MAX_RETRIES cost x it.hs + pendingWeight MAX_RETRIES cost x it.ctl it.item +
        ((it.ids true).map (callCost cost x)).sum ≤
      load MAX_RETRIES cost x hs := by
  unfold workerRetry Chan.recv at h
  split at h
  · simp at h
  · simp only [Option.some.injEq] at h
    subst h
    simp [pendingWeight, Iteration.ids]
  · rename_i n rest hrecv
    split at hrecv
    · rename_i m tail hbuf
      simp only [Recv.item.injEq] at hrecv
      obtain ⟨rfl, rfl⟩ := hrecv
      have hload : load MAX_RETRIES cost x hs =
          load MAX_RETRIES cost x
            { hs with svixRetryChannel := { hs.svixRetryChannel with buf := tail } } +
            retryWeight MAX_RETRIES cost x m := by
        simp only [load, hbuf, List.map_cons, List.sum_cons]
        omega
      rw [hload]
      dsimp only at h
      split at h
      · split at h
        · simp only [Option.some.injEq] at h
          subst h
          simp [pendingWeight, Iteration.ids]
        · rename_i herr
          simp only [Option.some.injEq] at h
          subst h
          have hw := sendNotification_weight MAX_RETRIES oor cost x true
            { hs with svixRetryChannel := { hs.svixRetryChannel with buf := tail } }
            (IncrementRetryCount MAX_RETRIES m).n d
          have hinc := retryWeight_IncrementRetryCount MAX_RETRIES cost x m
            (by simpa using herr)
          refine le_trans hw ?_
          rw [Nat.add_assoc, hinc]
      · simp only [Option.some.injEq] at h
        subst h
        have hw := Chan.send_weight (retryWeight MAX_RETRIES cost x)
          { hs.svixRetryChannel with buf := tail } m
        simp only [load, Iteration.ids, List.replicate_zero, List.map_nil, List.sum_nil,
          add_zero]
        cases hctl : (Chan.send { hs.svixRetryChannel with buf := tail } m).1 <;>
          simp only [hctl, pendingWeight] <;>
          simp [hctl] at hw <;> omega
    · split_ifs at hrecv

/-- The potential after a loop pass of a worker that was in its `select`. -/
theorem potential_finish (MAX_RETRIES : Int) (cost : Bool → Nat) (x : String) (s : Sys)
    (w : Nat) (wk : Worker) (fromRetry : Bool) (it : Iteration)
    (hw : s.workers[w]? = some wk) (hpc : wk.pc = WorkerPc.running) :
    potential MAX_RETRIES cost x (finish s w wk fromRetry it) + load MAX_RETRIES cost x s.hs =
      potential MAX_RETRIES cost x s + load MAX_RETRIES cost x it.hs +
        pendingWeight MAX_RETRIES cost x it.ctl it.item +
        ((it.ids fromRetry).map (callCost cost x)).sum := by
  obtain ⟨f1, -, -, -, f5, f6⟩ := finish_fields s w wk fromRetry it
  simp only [potential, f1, f5, f6, List.map_append, List.sum_append]
  have hheld : heldWeight MAX_RETRIES cost x wk = 0 := by simp [heldWeight, hpc]
  split
  · rename_i n hctl hitem
    have hsum := sum_map_set (heldWeight MAX_RETRIES cost x) s.workers w wk
      { wk with pc := WorkerPc.sending n } hw
    have hnew : heldWeight MAX_RETRIES cost x { wk with pc := WorkerPc.sending n } =
        retryWeight MAX_RETRIES cost x n := rfl
    rw [hheld, hnew] at hsum
    simp only [hctl, hitem, pendingWeight]
    omega
  · rename_i hno
    have hp : pendingWeight MAX_RETRIES cost x it.ctl it.item = 0 := by
      unfold pendingWeight
      split
      · rename_i n hctl hitem
        exact absurd hitem (hno n hctl)
      · rfl
    rw [hp]
    omega

/-- A step of the main goroutine leaves the potential as it was. -/
theorem potential_mainStep (MAX_RETRIES : Int) (cost : Bool → Nat) (x : String) (s t : Sys)
    (h : mainStep s = some t) :
    potential MAX_RETRIES cost x t = potential MAX_RETRIES cost x s := by
  unfold mainStep at h
  split at h
  · split_ifs at h <;> simp only [Option.some.injEq] at h <;> subst h <;>
      simp [potential, load, heldWeight]
  · simp only [Option.some.injEq] at h
    subst h
    simp [potential, load]
  · split at h <;> rename_i hcl <;> simp only [Option.some.injEq] at h <;> subst h
    · unfold Chan.close at hcl
      split_ifs at hcl
      simp only [Option.some.injEq] at hcl
      subst hcl
      simp [potential, load]
    · simp [potential, load]
  · split at h <;> rename_i hcl <;> simp only [Option.some.injEq] at h <;> subst h
    · unfold Chan.close at hcl
      split_ifs at hcl
      simp only [Option.some.injEq] at hcl
      subst hcl
      simp [potential, load]
    · simp [potential, load]
  · simp only [Option.some.injEq] at h
    subst h
    simp [potential, load]
  · split_ifs at h
    simp only [Option.some.injEq] at h
    subst h
    simp [potential, load]
  · simp at h

/-- A move raises the potential by at most the weight of what it ingests. -/
theorem potential_step (MAX_RETRIES oor : Int) (cost : Bool → Nat) (x : String) (s t : Sys)
    (a : Action) (h : step MAX_RETRIES oor s a = some t) :
    potential MAX_RETRIES cost x t ≤
      potential MAX_RETRIES cost x s +
        ((ingested [a]).map (primaryWeight MAX_RETRIES cost x)).sum := by
  unfold step at h
  split_ifs at h with hc
  cases a with
  | main =>
    rw [potential_mainStep MAX_RETRIES cost x s t h]
    simp [ingested]
  | ingest n =>
    simp only at h
    split at h
    · rename_i c hsend
      simp only [Option.some.injEq] at h
      subst h
      have hw := Chan.send_weight (primaryWeight MAX_RETRIES cost x) s.hs.SvixChannel n
      rw [hsend] at hw
      simp only [potential, load, ingested, List.map_cons, List.map_nil, List.sum_cons,
        List.sum_nil] at hw ⊢
      simp at hw
      omega
    · simp at h
  | workerCancel w =>
    simp only at h
    split at h
    · rename_i wk hw
      split at h
      · rename_i hpc hcan
        simp only [Option.some.injEq] at h
        subst h
        have hsum := sum_map_set (heldWeight MAX_RETRIES cost x) s.workers w wk
          { pc := WorkerPc.exited, decrements := wk.decrements + 1 } hw
        have h1 : heldWeight MAX_RETRIES cost x wk = 0 := by simp [heldWeight, hpc]
        have h2 : heldWeight MAX_RETRIES cost x
            { pc := WorkerPc.exited, decrements := wk.decrements + 1 } = 0 := rfl
        rw [h1, h2] at hsum
        simp only [potential, load, workerCancel, ingested, List.map_nil, List.sum_nil]
        omega
      · simp at h
    · simp at h
  | workerPrimary w stamp d =>
    simp only at h
    split at h
    · rename_i wk hw
      split at h
      · rename_i hpc
        obtain ⟨it, hit, rfl⟩ := Option.map_eq_some'.1 h
        have hf := potential_finish MAX_RETRIES cost x s w wk false it hw hpc
        have hp := workerPrimary_weight MAX_RETRIES oor cost x s.hs stamp d it hit
        simp only [ingested, List.map_nil, List.sum_nil]
        omega
      · simp at h
    · simp at h
  | workerRetry w now d =>
    simp only at h
    split at h
    · rename_i wk hw
      split at h
      · rename_i hpc
        obtain ⟨it, hit, rfl⟩ := Option.map_eq_some'.1 h
        have hf := potential_finish MAX_RETRIES cost x s w wk true it hw hpc
        have hp := workerRetry_weight MAX_RETRIES oor cost x s.hs now d it hit
        simp only [ingested, List.map_nil, List.sum_nil]
        omega
      · simp at h
    · simp at h
  | workerResume w =>
    simp only at h
    split at h
    · rename_i wk hw
      split at h
      · rename_i n hpc
        have hsum := sum_map_set (heldWeight MAX_RETRIES cost x) s.workers w wk
          { wk with pc := WorkerPc.running } hw
        have h1 : heldWeight MAX_RETRIES cost x wk = retryWeight MAX_RETRIES cost x n := by
          simp [heldWeight, hpc]
        have h2 : heldWeight MAX_RETRIES cost x { wk with pc := WorkerPc.running } = 0 := rfl
        rw [h1, h2] at hsum
        have hw := Chan.send_weight (retryWeight MAX_RETRIES cost x) s.hs.svixRetryChannel n
        split at h
        · rename_i c hsend
          simp only [Option.some.injEq] at h
          subst h
          rw [hsend] at hw
          simp only [potential, load, ingested, List.map_nil, List.sum_nil] at hw ⊢
          simp at hw
          omega
        · simp only [Option.some.injEq] at h
          subst h
          simp [potential, ingested]
        · simp at h
      · simp at h
    · simp at h

/-- What a run ingests is what its first move ingests followed by what the
rest ingests. -/
theorem ingested_cons (a : Action) (acts : List Action) :
    ingested (a :: acts) = ingested [a] ++ ingested acts := by
  cases a <;> simp [ingested]

/-- A run raises the potential by at most the weight of what it ingests. -/
theorem potential_exec (MAX_RETRIES oor : Int) (cost : Bool → Nat) (x : String) :
    ∀ (acts : List Action) (s t : Sys), exec MAX_RETRIES oor s acts = some t →
      potential MAX_RETRIES cost x t ≤
        potential MAX_RETRIES cost x s +
          ((ingested acts).map (primaryWeight MAX_RETRIES cost x)).sum := by
  intro acts
  induction acts with
  | nil =>
    intro s t h
    simp only [exec, Option.some.injEq] at h
    subst h
    simp [ingested]
  | cons a acts ih =>
    intro s t h
    simp only [exec] at h
    split at h
    · rename_i s1 h1
      have hstep := potential_step MAX_RETRIES oor cost x s s1 a h1
      have hrest := ih s1 t h
      rw [ingested_cons, List.map_append, List.sum_append]
      omega
    · simp at h

/-- Only the notifications with id `x` weigh. -/
theorem sum_primaryWeight_filter (MAX_RETRIES : Int) (cost : Bool → Nat) (x : String)
    (l : List Notification) :
    (l.map (primaryWeight MAX_RETRIES cost x)).sum =
      ((l.filter (fun m => decide (m.Id = x))).map (primaryWeight MAX_RETRIES cost x)).sum := by
  induction l with
  | nil => rfl
  | cons m l ih =>
    by_cases hm : m.Id = x
    · simp [List.filter_cons, hm, ih]
    · simp [List.filter_cons, hm, ih, primaryWeight]

/-- With cost one for the calls that satisfy `p` and zero for the others, the
cost of a log is the number of its calls for id `x` that satisfy `p`. -/
theorem sum_callCost (p : Bool → Bool) (x : String) (l : List Call) :
    (l.map (callCost (fun b => if p b = true then 1 else 0) x)).sum =
      l.countP (fun c => decide (c.EventId = x) && p c.fromRetry) := by
  induction l with
  | nil => rfl
  | cons c l ih =>
    simp only [List.map_cons, List.sum_cons, ih, List.countP_cons, callCost]
    by_cases hc : c.EventId = x <;> by_cases hp : p c.fromRetry = true <;>
      simp [hc, hp, Nat.add_comm]

/-- What the client was called for id `x`, after a run from the boot in which
the notifications ingested with id `x` are exactly `n`: at most the cost of one
primary-pass call and of one retry-pass call per retry `n` has left. -/
theorem delivered_cost_le (MAX_RETRIES oor : Int) (cost : Bool → Nat) (conf : Config)
    (s0 s : Sys) (acts : List Action) (n : Notification)
    (hboot : boot conf = some s0)
    (hing : (ingested acts).filter (fun m => decide (m.Id = n.Id)) = [n])
    (hrun : exec MAX_RETRIES oor s0 acts = some s) :
    (s.delivered.map (callCost cost n.Id)).sum ≤
      cost false + cost true * budget MAX_RETRIES n := by
  obtain ⟨-, -, -, -, -, b6, -, b8, -, -, -, -, b13, -, b15⟩ := boot_fields conf s0 hboot
  have h0 : potential MAX_RETRIES cost n.Id s0 = 0 := by
    simp [potential, load, b6, b8, b13, b15]
  have hp := potential_exec MAX_RETRIES oor cost n.Id acts s0 s hrun
  rw [h0, sum_primaryWeight_filter, hing] at hp
  simp only [List.map_cons, List.map_nil, List.sum_cons, List.sum_nil, primaryWeight,
    if_true, add_zero, zero_add] at hp
  simp only [potential] at hp
  omega

/-- C7 (counterexample): with `MAX_RETRIES = 1`, the sample notification is
ingested with retry count 0, delivered once from the primary queue (answer
503) and once from the retry queue (answer 429), and then sits in the retry
queue with retry count 1.  A retry-queue pickup at clock reading 1700000001
does not discard it: the program is left as it was, the notification still in
the retry queue. -/
theorem retry_pickup_at_budget_requeues :
    exec 1 0 bootedOne exhaustingRun = some exhaustedOne ∧
    exhaustedOne.hs.svixRetryChannel.buf = [sampleWith 1 2000000000] ∧
    (sampleWith 1 2000000000).Metadata.RetryCount = 1 ∧
    exec 1 0 exhaustedOne [Action.workerRetry 0 1700000001 Delivery.success] =
      some exhaustedOne := by
  decide

/-- C7 (amended): in a run from the boot in which the notifications ingested
with the id of `n` are exactly `n`, ingested with retry count 0, the client is
called for that id at most `MAX_RETRIES + 1` times: at most once in a
primary-queue pass and at most `MAX_RETRIES` times in retry-queue passes.  A
retry-queue pickup of a notification whose retry count equals `MAX_RETRIES`
makes no client call: when the notification is ready to retry the pass drops
it and leaves the service without it, and when it is not ready the pass sends
it back, unchanged, on the retry queue. -/
theorem delivery_attempts_bounded (MAX_RETRIES oor : Int) (conf : Config) (s0 s : Sys)
    (acts : List Action) (n : Notification)
    (hmax : 0 ≤ MAX_RETRIES)
    (hboot : boot conf = some s0)
    (hing : (ingested acts).filter (fun m => decide (m.Id = n.Id)) = [n])
    (hfresh : n.Metadata.RetryCount = 0)
    (hrun : exec MAX_RETRIES oor s0 acts = some s) :
    ((s.delivered.countP (fun c => decide (c.EventId = n.Id)) : Nat) : Int) ≤
      MAX_RETRIES + 1 ∧
    s.delivered.countP (fun c => decide (c.EventId = n.Id) && !c.fromRetry) ≤ 1 ∧
    ((s.delivered.countP (fun c => decide (c.EventId = n.Id) && c.fromRetry) : Nat) : Int) ≤
      MAX_RETRIES ∧
    (∀ (hs : HookService) (m : Notification) (now : Int) (d : Delivery),
      m.Metadata.RetryCount = MAX_RETRIES →
      (ReadyToRetry now m = true →
        workerRetry MAX_RETRIES oor (withRetryHead hs m) now d =
          some { ctl := Ctl.done, hs := hs, item := some m, calls := 0 }) ∧
      (ReadyToRetry now m = false →
        workerRetry MAX_RETRIES oor (withRetryHead hs m) now d =
          some { ctl := (hs.svixRetryChannel.send m).1,
                 hs := { hs with svixRetryChannel := (hs.svixRetryChannel.send m).2 },
                 item := some m, calls := 0 })) := by
  have hbudget : budget MAX_RETRIES n = MAX_RETRIES.toNat := by
    simp [budget, hfresh]
  have hall := delivered_cost_le MAX_RETRIES oor
    (fun b => if (fun _ => true) b = true then 1 else 0) conf s0 s acts n hboot hing hrun
  have hprim := delivered_cost_le MAX_RETRIES oor
    (fun b => if (fun c => !c) b = true then 1 else 0) conf s0 s acts n hboot hing hrun
  have hretry := delivered_cost_le MAX_RETRIES oor
    (fun b => if (fun c => c) b = true then 1 else 0) conf s0 s acts n hboot hing hrun
  rw [sum_callCost, hbudget] at hall hprim hretry
  simp only [Bool.and_true, if_true, Bool.not_false, Bool.not_true, Bool.false_eq_true,
    if_false, one_mul, zero_mul, add_zero, zero_add] at hall hprim hretry
  refine ⟨by omega, hprim, by omega, ?_⟩
  intro hs m now d hm
  have hinc : IncrementRetryCount MAX_RETRIES m =
      { n := m, value := MAX_RETRIES,
        err := some ("Notification " ++ m.Id ++ " can not be tried more than MAX_RETRIES: "
          ++ toString MAX_RETRIES ++ " times") } := by
    simp [IncrementRetryCount, hm]
  constructor
  · intro hready
    simp only [workerRetry, Chan.recv, withRetryHead, hready, hinc, if_true, Option.isSome_some]
  · intro hnot
    simp only [workerRetry, Chan.recv, withRetryHead, hnot, Bool.false_eq_true, if_false]

/-- Witness for C7 (amended) with `MAX_RETRIES = 1`: the run that uses up the
budget of the sample notification makes two client calls for it. -/
theorem delivery_attempts_bounded_witness :
    (0 : Int) ≤ 1 ∧
    boot oneWorker = some bootedOne ∧
    (ingested exhaustingRun).filter (fun m => decide (m.Id = sampleNotification.Id)) =
      [sampleNotification] ∧
    sampleNotification.Metadata.RetryCount = 0 ∧
    exec 1 0 bootedOne exhaustingRun = some exhaustedOne ∧
    ((exhaustedOne.delivered.countP
        (fun c => decide (c.EventId = sampleNotification.Id)) : Nat) : Int) ≤ 1 + 1 :=
  ⟨by decide, by decide, by decide, rfl, by decide,
    (delivery_attempts_bounded 1 0 oneWorker bootedOne exhaustedOne exhaustingRun
      sampleNotification (by decide) (by decide) (by decide) rfl (by decide)).1⟩

/-! ## Theorems: the processed counter -/

/-- C11: for every value `c` of the 64-bit unsigned processed counter,
`updateProcessedMessagesCount` sets the counter to `(c + 1) mod 2 ^ 64`: to 0
when `c = 2 ^ 64 - 1` and to `c + 1`, a strictly greater value, otherwise; the
new value is again a 64-bit unsigned value, the time of the last message
becomes the clock reading and nothing else of the service changes.  A
primary-queue pass of a worker that receives an item makes this update exactly
once: after the pass the counter is `(c + 1) mod 2 ^ 64`. -/
theorem updateProcessedMessagesCount_wraps (stamp : String) (hs : HookService)
    (hc : hs.messagesProcessed < 2 ^ 64) :
    (updateProcessedMessagesCount stamp hs).messagesProcessed =
      (hs.messagesProcessed + 1) % 2 ^ 64 ∧
    (hs.messagesProcessed = 2 ^ 64 - 1 →
      (updateProcessedMessagesCount stamp hs).messagesProcessed = 0) ∧
    (hs.messagesProcessed ≠ 2 ^ 64 - 1 →
      (updateProcessedMessagesCount stamp hs).messagesProcessed = hs.messagesProcessed + 1 ∧
      hs.messagesProcessed < (updateProcessedMessagesCount stamp hs).messagesProcessed) ∧
    (updateProcessedMessagesCount stamp hs).messagesProcessed < 2 ^ 64 ∧
    updateProcessedMessagesCount stamp hs =
      { hs with
        messagesProcessed := (hs.messagesProcessed + 1) % 2 ^ 64,
        lastMessageProcessedTime := stamp } ∧
    (∀ (MAX_RETRIES oor : Int) (n : Notification) (rest : List Notification) (d : Delivery),
      hs.SvixChannel.buf = n :: rest →
      ∃ it, workerPrimary MAX_RETRIES oor hs stamp d = some it ∧
        it.hs.messagesProcessed = (hs.messagesProcessed + 1) % 2 ^ 64 ∧
        it.hs.lastMessageProcessedTime = stamp) := by
  have hupd : updateProcessedMessagesCount stamp hs =
      { hs with
        messagesProcessed := (hs.messagesProcessed + 1) % 2 ^ 64,
        lastMessageProcessedTime := stamp } := by
    unfold updateProcessedMessagesCount
    split_ifs with hmax
    · have hz : (hs.messagesProcessed + 1) % 2 ^ 64 = 0 := by omega
      rw [hz]
    · rfl
  refine ⟨by rw [hupd], ?_, ?_, ?_, hupd, ?_⟩
  · intro hmax
    rw [hupd]
    simp only
    omega
  · intro hne
    rw [hupd]
    simp only
    omega
  · rw [hupd]
    simp only
    omega
  · intro MAX_RETRIES oor n rest d hbuf
    have hrun : workerPrimary MAX_RETRIES oor hs stamp d =
        some (sendNotification MAX_RETRIES oor
          (updateProcessedMessagesCount stamp
            { hs with SvixChannel := { hs.SvixChannel with buf := rest } }) n d).toIteration := by
      simp only [workerPrimary, Chan.recv, hbuf]
    refine ⟨_, hrun, ?_, ?_⟩
    · simp only [Effect.toIteration, (sendNotification_hs _ _ _ _ _).2.2.2.2.1]
      unfold updateProcessedMessagesCount
      split_ifs with hmax
      · simp only at hmax ⊢
        omega
      · rfl
    · simp only [Effect.toIteration, (sendNotification_hs _ _ _ _ _).2.2.2.2.2]
      unfold updateProcessedMessagesCount
      split_ifs <;> rfl

/-- Witness for C11: the counter at its maximum is reset to 0, and the counter
at 41 becomes 42. -/
theorem updateProcessedMessagesCount_wraps_witness :
    (sampleServiceAt (2 ^ 64 - 1)).messagesProcessed < 2 ^ 64 ∧
    (updateProcessedMessagesCount "2023-11-14T22:13:20Z"
      (sampleServiceAt (2 ^ 64 - 1))).messagesProcessed = 0 ∧
    (updateProcessedMessagesCount "2023-11-14T22:13:20Z"
      (sampleServiceAt 41)).messagesProcessed = (sampleServiceAt 41).messagesProcessed + 1 :=
  ⟨by decide,
    (updateProcessedMessagesCount_wraps "2023-11-14T22:13:20Z" (sampleServiceAt (2 ^ 64 - 1))
      (by decide)).2.1 rfl,
    ((updateProcessedMessagesCount_wraps "2023-11-14T22:13:20Z" (sampleServiceAt 41)
      (by decide)).2.2.1 (by decide)).1⟩

end SvixHooks
